import Mathlib

/-!
Verification development for the PoemSys resource-lifecycle coordinator.

The Python sources are shallowly embedded: each class becomes a state
structure, each method a pure function from state (plus an environment of
external responses) to state.  Python dicts are modelled as association
lists with dict-style lookup/insert/delete; Python `None` returns as
`Option`; external collaborators (the NPS tunnel broker and the Docker
daemon) are modelled as queues of responses consumed in call order.
Definitions come first, all theorems follow.
-/

namespace PoemSys

/-! ## Association-list model of Python dicts -/

section Dict

variable {α : Type} {β : Type} [DecidableEq α]

/-- Dictionary lookup, `d.get(k)` / `d[k]`. -/
def dget : List (α × β) → α → Option β
  | [], _ => none
  | (k, v) :: t, k0 => if k = k0 then some v else dget t k0

/-- Dictionary write, `d[k] = v`: replaces in place or appends. -/
def dput : List (α × β) → α → β → List (α × β)
  | [], k0, v0 => [(k0, v0)]
  | (k, v) :: t, k0, v0 => if k = k0 then (k0, v0) :: t else (k, v) :: dput t k0 v0

/-- Dictionary delete, `del d[k]` (no-op when the key is absent). -/
def ddel : List (α × β) → α → List (α × β)
  | [], _ => []
  | (k, v) :: t, k0 => if k = k0 then ddel t k0 else (k, v) :: ddel t k0

/-- In-place update of one entry, `d[k]["field"] = v` (no-op when the
key is absent; the source only performs it on present keys). -/
def dmodify : List (α × β) → α → (β → β) → List (α × β)
  | [], _, _ => []
  | (k, v) :: t, k0, f => if k = k0 then (k, f v) :: t else (k, v) :: dmodify t k0 f

/-- The key list of a dictionary. -/
def dkeys (l : List (α × β)) : List α := l.map Prod.fst

/-- Membership test, `k in d`. -/
def dmem (l : List (α × β)) (k : α) : Bool := (dget l k).isSome

end Dict

/-! ## Character-list string helpers

`String.toLower`, `in` (substring test) and `split(':')[-1]` from the
source are modelled over `List Char` so that they evaluate by kernel
reduction on concrete inputs. -/

/-- Whether `pat` occurs at the start of `s`. -/
def chars_starts_with : List Char → List Char → Bool
  | _, [] => true
  | [], _ :: _ => false
  | a :: t, b :: u => (a == b) && chars_starts_with t u

/-- Python substring test `pat in s` over character lists. -/
def chars_contains (s pat : List Char) : Bool :=
  match s with
  | [] => chars_starts_with [] pat
  | _ :: t => chars_starts_with s pat || chars_contains t pat

/-- Python `pat in s` on strings. -/
def str_contains (s pat : String) : Bool := chars_contains s.data pat.data

/-- Python `pat in s.lower()` on strings. -/
def str_contains_lower (s pat : String) : Bool :=
  chars_contains (s.data.map Char.toLower) pat.data

/-- Python `tag.split(':')[-1]`: the segment after the last colon. -/
def tag_part (tag : String) : List Char :=
  (tag.data.reverse.takeWhile (fun c => !(c == ':'))).reverse

/-- Truthiness of a Python value that is either `None` or a bool. -/
def py_truthy : Option Bool → Bool
  | none => false
  | some b => b

/-! ## Port Manager (`port_manager.py`, class `PortManager`)

The allocation table `allocated_ports` is a dict keyed by port (the source
keys it by `str(port)`; every key it ever writes is a decimal digit
string, so we key by the number itself).  `random.choice` is modelled by
an oracle index `pick` reduced modulo the candidate-list length, and
`time.time()` by an explicit `now` argument.  The persistence file is the
`disk` field; `save_allocated_ports` copies the table to it. -/

/-- One value of the `allocated_ports` dict:
`{"service": ..., "allocated_time": ..., "client_id": ...}`. -/
structure PortInfo where
  service : String
  allocated_time : Nat
  client_id : Option Nat
deriving Repr, DecidableEq

/-- The relevant fields of the `PortManager` configuration. -/
structure PMConfig where
  range_start : Nat
  range_end : Nat
  reserved_ports : List Nat
  strategy : String
  prefer_ranges : List (Nat × Nat)
deriving Repr, DecidableEq

/-- The mutable state of a `PortManager` plus its persistence file. -/
structure PMState where
  config : PMConfig
  allocated_ports : List (Nat × PortInfo)
  disk : List (Nat × PortInfo)
deriving Repr, DecidableEq

namespace PortManager

/-- Python `min` over a list (`min(available_ports)`). -/
def py_min : List Nat → Option Nat
  | [] => none
  | a :: t => some (t.foldl Nat.min a)

/-- Python `random.choice` over a list, driven by the oracle index `pick`. -/
def py_choice : List Nat → Nat → Option Nat
  | [], _ => none
  | a :: t, pick => some ((a :: t).get ⟨pick % (a :: t).length, Nat.mod_lt _ (Nat.succ_pos _)⟩)

/-- Source method `save_allocated_ports`: dumps the table to the file. -/
def save_allocated_ports (s : PMState) : PMState :=
  { s with disk := s.allocated_ports }

/-- Source method `get_available_ports`: the sorted list of in-range ports
that are neither reserved nor allocated. -/
def get_available_ports (s : PMState) : List Nat :=
  (List.range' s.config.range_start (s.config.range_end + 1 - s.config.range_start)).filter
    (fun p => !(decide (p ∈ s.config.reserved_ports)) && !(dmem s.allocated_ports p))

/-- Source method `is_port_allocated`. -/
def is_port_allocated (s : PMState) (port : Nat) : Bool :=
  dmem s.allocated_ports port

/-- Source method `_is_port_available`: in range, not reserved, not held. -/
def is_port_available (s : PMState) (port : Nat) : Bool :=
  decide (s.config.range_start ≤ port) && decide (port ≤ s.config.range_end) &&
    !(decide (port ∈ s.config.reserved_ports)) && !(dmem s.allocated_ports port)

/-- Source method `_mark_port_allocated`.  The Python function has no
`return` statement, so its value is `None`; the first component records
that value because `update_tunnel` in the orchestrator branches on it. -/
def mark_port_allocated (s : PMState) (port : Nat) (service_name : String)
    (client_id : Option Nat) (now : Nat) : Option Bool × PMState :=
  (none,
    { s with
      allocated_ports := dput s.allocated_ports port ⟨service_name, now, client_id⟩ })

/-- The strategy branch of `allocate_port`: `sequential` takes the minimum
free port, `random` draws from the configured preferred sub-ranges first
and falls back to the whole free set; an unknown strategy selects
nothing. -/
def choose_from_pool (s : PMState) (pick : Nat) : Option Nat :=
  let available_ports := get_available_ports s
  if available_ports.isEmpty then none
  else if s.config.strategy = "sequential" then py_min available_ports
  else if s.config.strategy = "random" then
    let cand := s.config.prefer_ranges.foldl
      (fun (acc : List Nat) (r : Nat × Nat) => acc ++ available_ports.filter
        (fun p => decide (r.1 ≤ p) && decide (p ≤ r.2))) []
    match py_choice cand pick with
    | some p => some p
    | none => py_choice available_ports pick
  else none

/-- The port-selection half of `allocate_port`: the preferred port when
available, otherwise a port chosen by the strategy from the free pool. -/
def choose_port (s : PMState) (preferred_port : Option Nat) (pick : Nat) : Option Nat :=
  let fromPreferred : Option Nat :=
    match preferred_port with
    | some p => if is_port_available s p then some p else none
    | none => none
  match fromPreferred with
  | some p => some p
  | none => choose_from_pool s pick

/-- Source method `allocate_port`: preferred port if available, otherwise
pick by strategy from the free pool, then mark and persist. -/
def allocate_port (s : PMState) (service_name : String) (client_id : Option Nat)
    (preferred_port : Option Nat) (pick : Nat) (now : Nat) : Option Nat × PMState :=
  match choose_port s preferred_port pick with
  | some p =>
    let s1 := (mark_port_allocated s p service_name client_id now).2
    (some p, save_allocated_ports s1)
  | none => (none, s)

/-- Source method `release_port`: delete the entry and persist when held,
otherwise report `False` without touching anything. -/
def release_port (s : PMState) (port : Nat) : Bool × PMState :=
  if dmem s.allocated_ports port then
    (true, save_allocated_ports { s with allocated_ports := ddel s.allocated_ports port })
  else
    (false, s)

end PortManager

/-! ## NPS broker client (`nps_manager.py`, method `_send_request`)

Each HTTP attempt is an oracle value describing what `requests` and the
response handling would observe on that attempt. -/

/-- A decoded broker response, `{"status": ..., "msg": ...}`. -/
structure NpsResult where
  status : Nat
  msg : String
deriving Repr, DecidableEq

/-- What one HTTP attempt of `_send_request` observes. -/
inductive HttpAttempt where
  /-- `requests.exceptions.Timeout`. -/
  | timeout
  /-- `requests.exceptions.HTTPError` raised by `raise_for_status` (4xx/5xx). -/
  | httpError
  /-- any other `requests.exceptions.RequestException` (connection error). -/
  | connError
  /-- an exception outside the `requests` hierarchy. -/
  | unexpectedError
  /-- a 2xx JSON response that decodes to `r`. -/
  | jsonOk (r : NpsResult)
  /-- a 2xx response with JSON content type whose body fails to decode. -/
  | jsonDecodeError (emsg : String)
  /-- a non-JSON response with the given status-200 flag and
  success-marker flag. -/
  | nonJson (status200 : Bool) (hasSuccessMarker : Bool) (text : String)
deriving Repr, DecidableEq

/-- Whether an attempt outcome is a retried transport failure. -/
def is_transport_failure : HttpAttempt → Bool
  | .timeout => true
  | .httpError => true
  | .connError => true
  | _ => false

/-- Source method `_send_request`: the retry loop over `retry_count`
attempts; transport failures retry (returning `None` after the last
attempt), an unexpected exception returns `None` at once, and any
received response resolves the call immediately. -/
def send_request : Nat → List HttpAttempt → Option NpsResult
  | 0, _ => none
  | _ + 1, [] => none
  | n + 1, a :: rest =>
    match a with
    | .jsonOk r => some r
    | .jsonDecodeError emsg => some ⟨0, "JSON Decode Error: " ++ emsg⟩
    | .nonJson status200 marker text =>
      if status200 && marker then some ⟨1, "Success (interpreted)"⟩
      else some ⟨0, "Non-JSON response or failure: " ++ text⟩
    | .unexpectedError => none
    | .timeout => if n = 0 then none else send_request n rest
    | .httpError => if n = 0 then none else send_request n rest
    | .connError => if n = 0 then none else send_request n rest

/-! ## Dynamic tunnel orchestrator (`dynamic_tunnel_manager.py`)

Broker calls made by the orchestrator are drawn from per-endpoint queues:
`addQ` answers `nps.add_tunnel`, `listQ` answers `nps.list_tunnels`,
`delQ` answers `nps.delete_tunnel`, `updQ` answers `nps.update_tunnel`.
`pickQ` feeds the random-choice oracle of the allocator and `stopErrQance`
is unused here (it drives Docker stop errors in the container manager). -/

/-- One row of the broker tunnel list (fields `Id`, `Port`,
`Target.TargetStr`, `Remark`). -/
structure Row where
  rid : Nat
  rport : Nat
  rtarget : String
  rremark : String
deriving Repr, DecidableEq

/-- The environment of external responses, consumed in call order. -/
structure Env where
  addQ : List Bool
  listQ : List (List Row)
  delQ : List Bool
  updQ : List Bool
  pickQ : List Nat
  stopErrQ : List Bool
  now : Nat
deriving Repr, DecidableEq

/-- Pop the `add_tunnel` response queue. -/
def popAdd (e : Env) : Bool × Env := (e.addQ.headD false, { e with addQ := e.addQ.tail })

/-- Pop the `list_tunnels` response queue (an exhausted queue responds
with no rows, like a failed call). -/
def popListQ (e : Env) : List Row × Env :=
  (e.listQ.headD [], { e with listQ := e.listQ.tail })

/-- Pop the `delete_tunnel` response queue. -/
def popDel (e : Env) : Bool × Env := (e.delQ.headD false, { e with delQ := e.delQ.tail })

/-- Pop the `update_tunnel` response queue. -/
def popUpd (e : Env) : Bool × Env := (e.updQ.headD false, { e with updQ := e.updQ.tail })

/-- Pop the random-choice oracle queue. -/
def popPick (e : Env) : Nat × Env := (e.pickQ.headD 0, { e with pickQ := e.pickQ.tail })

/-- Pop the Docker stop-error oracle queue. -/
def popStopErr (e : Env) : Bool × Env :=
  (e.stopErrQ.headD false, { e with stopErrQ := e.stopErrQ.tail })

/-- One value of the orchestrator cache `tunnel_mappings`. -/
structure TunnelInfo where
  port : Nat
  service : String
  client_id : Nat
  target : String
  remark : String
deriving Repr, DecidableEq

/-- The dict returned by `create_tunnel` (a cache value plus the
`tunnel_id` key, which is `None` when id resolution failed). -/
structure TunnelRec where
  tunnel_id : Option Nat
  port : Nat
  service : String
  client_id : Nat
  target : String
  remark : String
deriving Repr, DecidableEq

/-- The state of a `DynamicTunnelManager`: its cache plus the embedded
`PortManager`.  `default_client_id` is the `clients.default_client_id`
configuration value. -/
structure DTMState where
  default_client_id : Nat
  tunnel_mappings : List (Nat × TunnelInfo)
  pm : PMState
deriving Repr, DecidableEq

namespace DynamicTunnelManager

/-- The service-kind heuristic applied to a broker row (shared by
`_load_tunnel_mappings` and `get_tunnel_info`). -/
def infer_service (remark target : String) : String :=
  if str_contains_lower remark "ssh" || str_contains target ":22" then "ssh"
  else if str_contains_lower remark "http" || str_contains target ":80" ||
    str_contains target ":8080" then "http"
  else if str_contains_lower remark "jupyter" || str_contains target ":8888" then "jupyter"
  else if str_contains_lower remark "web" then "web"
  else "unknown"

/-- The id-resolution loop of `create_tunnel`: up to `fuel` calls to
`nps.list_tunnels`, scanning each row list for the first row whose `Port`
matches; a truthy (nonzero) id stops the loop. -/
def resolve_loop (port : Nat) : Nat → Env → Option Nat → Option Nat × Env
  | 0, e, acc => (acc, e)
  | n + 1, e, acc =>
    let rows := (popListQ e).1
    let e1 := (popListQ e).2
    let acc1 := match rows.find? (fun r => r.rport == port) with
      | some r => some r.rid
      | none => acc
    match acc1 with
    | some t => if t ≠ 0 then (some t, e1) else resolve_loop port n e1 acc1
    | none => resolve_loop port n e1 acc1

/-- Source method `create_tunnel`: allocate a port, call the broker to add
the tunnel (releasing the port when the call fails), then poll the broker
list up to 3 times to resolve the assigned id.  An unresolved id yields a
record with `tunnel_id = none` that is not cached; a resolved id is
cached. -/
def create_tunnel (st : DTMState) (env : Env) (target service_name : String)
    (client_id0 : Option Nat) (preferred_port : Option Nat) (remark0 : Option String) :
    Option TunnelRec × DTMState × Env :=
  let client_id := client_id0.getD st.default_client_id
  let pick := (popPick env).1
  let env0 := (popPick env).2
  let alloc := PortManager.allocate_port st.pm service_name (some client_id) preferred_port
    pick env.now
  match alloc.1 with
  | none => (none, { st with pm := alloc.2 }, env0)
  | some port =>
    let pm1 := alloc.2
    let remark := remark0.getD (service_name ++ "_" ++ target ++ "_" ++ toString env.now)
    let addOk := (popAdd env0).1
    let env1 := (popAdd env0).2
    if !addOk then
      (none, { st with pm := (PortManager.release_port pm1 port).2 }, env1)
    else
      let resolved := resolve_loop port 3 env1 none
      let env2 := resolved.2
      let truthyId := match resolved.1 with
        | some t => if t = 0 then none else some t
        | none => none
      match truthyId with
      | none =>
        (some ⟨none, port, service_name, client_id, target, remark⟩,
          { st with pm := pm1 }, env2)
      | some tid =>
        (some ⟨some tid, port, service_name, client_id, target, remark⟩,
          { st with
            pm := pm1,
            tunnel_mappings := dput st.tunnel_mappings tid
              ⟨port, service_name, client_id, target, remark⟩ }, env2)

/-- Source method `delete_tunnel`: a cached id is deleted at the broker,
then its port released and the cache entry dropped; an unknown id is
deleted at the broker directly without touching local state. -/
def delete_tunnel (st : DTMState) (env : Env) (tid : Nat) : Bool × DTMState × Env :=
  match dget st.tunnel_mappings tid with
  | none =>
    ((popDel env).1, st, (popDel env).2)
  | some info =>
    let ok := (popDel env).1
    let env1 := (popDel env).2
    if !ok then (false, st, env1)
    else
      (true,
        { st with
          pm := (PortManager.release_port st.pm info.port).2,
          tunnel_mappings := ddel st.tunnel_mappings tid }, env1)

/-- The tail of `update_tunnel` after the port-change block: call the
broker, then on success swap the ports and rewrite the cache entry. -/
def update_tunnel_rest (st : DTMState) (env : Env) (tid : Nat) (info : TunnelInfo)
    (target0 : Option String) (port0 : Option Nat) (remark0 : Option String)
    (final_target final_remark : String) (final_port : Nat) (allocated_new_port : Bool) :
    Bool × DTMState × Env :=
  let ok := (popUpd env).1
  let env1 := (popUpd env).2
  if !ok then
    if allocated_new_port then
      (false, { st with pm := (PortManager.release_port st.pm final_port).2 }, env1)
    else (false, st, env1)
  else
    let st1 :=
      if allocated_new_port then
        { st with
          pm := (PortManager.release_port st.pm info.port).2,
          tunnel_mappings := dmodify st.tunnel_mappings tid
            (fun i => { i with port := final_port }) }
      else st
    let st2 :=
      match target0 with
      | some _ =>
        { st1 with
          tunnel_mappings := dmodify st1.tunnel_mappings tid
            (fun i => { i with target := final_target }) }
      | none => st1
    let st3 :=
      match remark0 with
      | some _ =>
        { st2 with
          tunnel_mappings := dmodify st2.tunnel_mappings tid
            (fun i => { i with remark := final_remark }) }
      | none => st2
    (true, st3, env1)

/-- Source method `update_tunnel`: no-op-safe; a port change first checks
availability, then calls `_mark_port_allocated` and branches on its
(`None`) return value. -/
def update_tunnel (st : DTMState) (env : Env) (tid : Nat)
    (target0 : Option String) (port0 : Option Nat) (remark0 : Option String) :
    Bool × DTMState × Env :=
  match dget st.tunnel_mappings tid with
  | none => (false, st, env)
  | some info =>
    let final_target := target0.getD info.target
    let final_port := port0.getD info.port
    let final_remark := remark0.getD info.remark
    if (final_target == info.target) && (final_port == info.port) &&
        (final_remark == info.remark) then
      (true, st, env)
    else
      match port0 with
      | some p =>
        if p != info.port then
          if !(PortManager.is_port_available st.pm p) then (false, st, env)
          else
            let marked := PortManager.mark_port_allocated st.pm p info.service
              (some info.client_id) env.now
            if !(py_truthy marked.1) then (false, { st with pm := marked.2 }, env)
            else update_tunnel_rest { st with pm := marked.2 } env tid info target0 port0
              remark0 final_target final_remark p true
        else update_tunnel_rest st env tid info target0 port0 remark0
          final_target final_remark final_port false
      | none => update_tunnel_rest st env tid info target0 port0 remark0
          final_target final_remark final_port false

/-- Source method `list_tunnels` (cache-based listing with optional
client and service filters). -/
def list_tunnels (st : DTMState) (client_id0 : Option Nat) (service0 : Option String) :
    List TunnelRec :=
  st.tunnel_mappings.filterMap (fun kv =>
    let skipClient : Bool := match client_id0 with
      | some c => decide (kv.2.client_id ≠ c)
      | none => false
    let skipService : Bool := match service0 with
      | some sv => decide (kv.2.service ≠ sv)
      | none => false
    if skipClient || skipService then none
    else some ⟨some kv.1, kv.2.port, kv.2.service, kv.2.client_id, kv.2.target, kv.2.remark⟩)

/-- The deletion loop of `clear_service_tunnels`: records lacking a
truthy id are reported and skipped. -/
def clear_loop : List TunnelRec → DTMState → Env → Nat → Nat × DTMState × Env
  | [], st, env, count => (count, st, env)
  | tr :: rest, st, env, count =>
    match tr.tunnel_id with
    | some tid =>
      if tid ≠ 0 then
        let deleted := delete_tunnel st env tid
        clear_loop rest deleted.2.1 deleted.2.2 (if deleted.1 then count + 1 else count)
      else clear_loop rest st env count
    | none => clear_loop rest st env count

/-- Source method `clear_service_tunnels`. -/
def clear_service_tunnels (st : DTMState) (env : Env) (service_name : String)
    (client_id0 : Option Nat) : Nat × DTMState × Env :=
  clear_loop (list_tunnels st client_id0 (some service_name)) st env 0

/-- One row of the startup reconciliation `_load_tunnel_mappings`: cache
the row and mark its port allocated when not already tracked. -/
def reconcile_row (st : DTMState) (row : Row) : DTMState :=
  let service := infer_service row.rremark row.rtarget
  let st1 :=
    { st with
      tunnel_mappings := dput st.tunnel_mappings row.rid
        ⟨row.rport, service, st.default_client_id, row.rtarget, row.rremark⟩ }
  if PortManager.is_port_allocated st1.pm row.rport then st1
  else
    { st1 with
      pm := (PortManager.mark_port_allocated st1.pm row.rport service
        (some st.default_client_id) 0).2 }

/-- Source method `_load_tunnel_mappings`: pull the broker tunnel list for
the default client and absorb every row. -/
def load_tunnel_mappings (st : DTMState) (env : Env) : DTMState × Env :=
  (((popListQ env).1).foldl reconcile_row st, (popListQ env).2)

end DynamicTunnelManager

/-- The executable invariant of claim C5 on the allocation table: one
record per port, every port in range and not reserved. -/
def port_inv (s : PMState) : Bool :=
  decide ((dkeys s.allocated_ports).Nodup) &&
  s.allocated_ports.all (fun kv =>
    decide (s.config.range_start ≤ kv.1) && decide (kv.1 ≤ s.config.range_end) &&
    !(decide (kv.1 ∈ s.config.reserved_ports)))

/-- The executable cache invariant of claim C10: cache keys are distinct
resolved ids, the port of every cached record is allocated, and no two
cached records share a port. -/
def cache_inv (d : DTMState) : Bool :=
  decide ((dkeys d.tunnel_mappings).Nodup) &&
  d.tunnel_mappings.all (fun kv => PortManager.is_port_allocated d.pm kv.2.port) &&
  decide ((d.tunnel_mappings.map (fun kv => kv.2.port)).Nodup)

/-- The operations quantified over in claim C5. -/
inductive SysOp where
  | opAllocate (svc : String) (cid : Option Nat) (pref : Option Nat) (pick now : Nat)
  | opRelease (port : Nat)
  | opCreate (target svc : String) (cid : Option Nat) (pref : Option Nat)
      (remark : Option String)
  | opDelete (tid : Nat)
  | opReconcile
deriving Repr, DecidableEq

/-- Apply one operation to the orchestrator state. -/
def apply_op (s : DTMState × Env) : SysOp → DTMState × Env
  | .opAllocate svc cid pref pick now =>
    ({ s.1 with pm := (PortManager.allocate_port s.1.pm svc cid pref pick now).2 }, s.2)
  | .opRelease port =>
    ({ s.1 with pm := (PortManager.release_port s.1.pm port).2 }, s.2)
  | .opCreate target svc cid pref remark =>
    ((DynamicTunnelManager.create_tunnel s.1 s.2 target svc cid pref remark).2.1,
     (DynamicTunnelManager.create_tunnel s.1 s.2 target svc cid pref remark).2.2)
  | .opDelete tid =>
    ((DynamicTunnelManager.delete_tunnel s.1 s.2 tid).2.1,
     (DynamicTunnelManager.delete_tunnel s.1 s.2 tid).2.2)
  | .opReconcile => DynamicTunnelManager.load_tunnel_mappings s.1 s.2

/-- Run a sequence of operations. -/
def run_ops (ops : List SysOp) (s : DTMState × Env) : DTMState × Env :=
  ops.foldl apply_op s

/-! ## Container lifecycle coordinator (`container_manager.py`)

The Docker runtime is modelled as a dict from container name to a
running flag; `containers.run` inserts, `stop` clears the flag, `remove`
deletes.  The two persistence files are mirrored by the `images_disk`
(current map and history map together, as in the single JSON file) and
`states_disk` fields. -/

/-- The resolved internal service ports and snapshot limit from
`config.json`. -/
structure CMConfig where
  ssh_port : Nat
  jupyter_port : Nat
  app_port : Nat
  max_history : Nat
deriving Repr, DecidableEq

/-- The state of a `DockerContainerManager` plus runtime and files. -/
structure CMState where
  config : CMConfig
  container_images : List (String × String)
  image_history : List (String × List String)
  container_tunnels : List (String × List (String × TunnelRec))
  images_disk : List (String × String) × List (String × List String)
  states_disk : List (String × List (String × TunnelRec))
  dtm : DTMState
  docker : List (String × Bool)
deriving Repr, DecidableEq

namespace DockerContainerManager

/-- Source method `_save_container_images`. -/
def save_container_images (s : CMState) : CMState :=
  { s with images_disk := (s.container_images, s.image_history) }

/-- Source method `_save_container_states`. -/
def save_container_states (s : CMState) : CMState :=
  { s with states_disk := s.container_tunnels }

/-- Source method `_load_container_images` (re-read the file). -/
def load_container_images (s : CMState) : CMState :=
  { s with container_images := s.images_disk.1, image_history := s.images_disk.2 }

/-- Source method `get_container_ports`. -/
def get_container_ports (s : CMState) (name : String) : Option (List (String × Nat)) :=
  match dget s.container_tunnels name with
  | none => none
  | some m =>
    let ports := m.map (fun kv => (kv.1 ++ "_port", kv.2.port))
    if ports.isEmpty then none else some ports

/-- The fixed service set `{ssh, jupyter, app}` with its internal ports. -/
def services_to_tunnel (c : CMConfig) : List (String × Nat) :=
  [("ssh", c.ssh_port), ("jupyter", c.jupyter_port), ("app", c.app_port)]

/-- The tunnel-creation loop shared by `create_container` and
`start_container`: one `create_tunnel` per service, recording successes;
a failure marks the batch failed and a failed `ssh` service stops the
loop at once. -/
def tunnel_batch (d : DTMState) (env : Env) (name ip : String) :
    List (String × Nat) → List (String × TunnelRec) → List (String × Nat) → Bool →
    List (String × TunnelRec) × List (String × Nat) × Bool × DTMState × Env
  | [], created, ports, failed => (created, ports, failed, d, env)
  | (svc, iport) :: rest, created, ports, failed =>
    let target := ip ++ ":" ++ toString iport
    let remark := "Container:" ++ name ++ "_Service:" ++ svc
    let res := DynamicTunnelManager.create_tunnel d env target svc none none (some remark)
    match res.1 with
    | some tr =>
      tunnel_batch res.2.1 res.2.2 name ip rest (created ++ [(svc, tr)])
        (ports ++ [(svc ++ "_port", tr.port)]) failed
    | none =>
      if svc = "ssh" then (created, ports, true, res.2.1, res.2.2)
      else tunnel_batch res.2.1 res.2.2 name ip rest created ports true

/-- The rollback loop of `create_container`: delete every created tunnel
whose `tunnel_id` is not `None`. -/
def rollback_tunnels : List (String × TunnelRec) → DTMState → Env → DTMState × Env
  | [], d, e => (d, e)
  | kv :: rest, d, e =>
    match kv.2.tunnel_id with
    | some tid =>
      let deleted := DynamicTunnelManager.delete_tunnel d e tid
      rollback_tunnels rest deleted.2.1 deleted.2.2
    | none => rollback_tunnels rest d e

/-- Source method `create_container`.  Docker API failures other than the
initial NotFound are environment exceptions and are not modelled; `ip0`
is what `_get_container_ip` returns after the post-run wait. -/
def create_container (s : CMState) (env : Env) (image name : String) (ip0 : Option String) :
    Option (List (String × Nat)) × CMState × Env :=
  if dmem s.docker name then (get_container_ports s name, s, env)
  else
    let s1 := { s with docker := dput s.docker name true }
    let s2 := save_container_images
      { s1 with
        container_images := dput s1.container_images name image,
        image_history := dput s1.image_history name
          (((dget s1.image_history name).getD []) ++ [image]) }
    match ip0 with
    | none => (none, { s2 with docker := ddel s2.docker name }, env)
    | some ip =>
      let batch := tunnel_batch s2.dtm env name ip (services_to_tunnel s2.config) [] [] false
      let created := batch.1
      let ports := batch.2.1
      let failed := batch.2.2.1
      let dtm1 := batch.2.2.2.1
      let env1 := batch.2.2.2.2
      if failed then
        let rolled := rollback_tunnels created dtm1 env1
        let s3 :=
          { s2 with
            dtm := rolled.1,
            docker := ddel s2.docker name }
        let s4 := save_container_images
          { s3 with
            container_images := ddel s3.container_images name,
            image_history := ddel s3.image_history name }
        let s5 := save_container_states
          { s4 with container_tunnels := ddel s4.container_tunnels name }
        (none, s5, rolled.2)
      else
        let s3 := save_container_states
          { s2 with
            dtm := dtm1,
            container_tunnels := dput s2.container_tunnels name created }
        (some ports, s3, env1)

/-- Truthiness of the Python expression `not docker.errors.NotFound` in
the return statement of `stop_container`: the operand is a class object,
which is always truthy, so the expression is constantly false. -/
def not_notfound_class : Bool := false

/-- The tunnel-deletion loop of `stop_container`: entries without an id
are warned about but do not clear the success flag. -/
def stop_tunnel_loop : List (String × TunnelRec) → CMState → Env → Bool × CMState × Env
  | [], s, env => (true, s, env)
  | (_, tr) :: rest, s, env =>
    match tr.tunnel_id with
    | some tid =>
      let deleted := DynamicTunnelManager.delete_tunnel s.dtm env tid
      let restRes := stop_tunnel_loop rest { s with dtm := deleted.2.1 } deleted.2.2
      (deleted.1 && restRes.1, restRes.2.1, restRes.2.2)
    | none => stop_tunnel_loop rest s env

/-- Source method `stop_container`: stop the runtime container (a missing
container or a stop error is caught and logged), then unconditionally
delete every tunnel bound to the name.  The return value embeds the
source expression
`(container is not None or not docker.errors.NotFound) and tunnel_cleanup_success`. -/
def stop_container (s : CMState) (env : Env) (name : String) : Bool × CMState × Env :=
  let found := dmem s.docker name
  let stopErr := if found then (popStopErr env).1 else false
  let env1 := if found then (popStopErr env).2 else env
  let docker1 := if found && !stopErr then dput s.docker name false else s.docker
  let s1 := { s with docker := docker1 }
  match dget s1.container_tunnels name with
  | none => ((found || not_notfound_class) && true, s1, env1)
  | some tmap =>
    let s2 := save_container_states
      { s1 with container_tunnels := ddel s1.container_tunnels name }
    let cleaned := stop_tunnel_loop tmap s2 env1
    ((found || not_notfound_class) && cleaned.1, cleaned.2.1, cleaned.2.2)

/-- Result of `stop_and_commit`: a normal return value, or an uncaught
`NameError` escaping the method. -/
inductive CommitResult where
  | ok (r : Option String)
  | nameError
deriving Repr, DecidableEq

/-- Source method `stop_and_commit`.  The assignment
`timestamp = time.strftime(...)` sits on a line indented into the
`if not self.stop_container(name):` block after its `return None`, so it
never executes; on the path that reaches the tag construction the local
variable `timestamp` is unbound, which raises `NameError` at the f-string
`f"v{version}_{timestamp}"`.  The embedding keeps `timestamp` as the
optional value it has at that point (`none`) and raises where Python
would.  The commit tail after that point is embedded for completeness
with an always-successful commit. -/
def stop_and_commit (s : CMState) (env : Env) (name : String)
    (commit_message : Option String) : CommitResult × CMState × Env :=
  if !(dmem s.docker name) then (.ok none, s, env)
  else
    let stopRes := stop_container s env name
    let s1 := stopRes.2.1
    let env1 := stopRes.2.2
    if !stopRes.1 then (.ok none, s1, env1)
    else
      let timestamp : Option String := none
      let s2 := load_container_images s1
      let version := ((dget s2.image_history name).getD []).length + 1
      match timestamp with
      | none => (.nameError, s2, env1)
      | some ts =>
        let final_tag := name ++ ":" ++ ("v" ++ toString version ++ "_" ++ ts)
        let s3 :=
          { s2 with
            container_images := dput s2.container_images name final_tag,
            image_history := dput s2.image_history name
              (((dget s2.image_history name).getD []) ++ [final_tag]) }
        let s4 := save_container_images s3
        let s5 := { s4 with docker := ddel s4.docker name }
        (.ok (some final_tag), s5, env1)

/-- Source method `_cleanup_old_images` restricted to its history-record
effect (actual image deletion is a runtime side effect). -/
def cleanup_old_images (s : CMState) (name : String) : CMState :=
  match dget s.image_history name with
  | none => s
  | some history =>
    let mh := max 1 s.config.max_history
    if history.length > mh then
      save_container_images
        { s with
          image_history := dput s.image_history name (history.drop (history.length - mh)) }
    else s

/-- The version-resolution segment of `start_from_snapshot` (lines
choosing `image_tag_to_use` from `available_versions` and
`version_tag`): the latest entry when no tag is requested, otherwise the
most recent entry that equals the request or contains it in its tag part
(`version_tag == tag or version_tag in tag.split(':')[-1]`); `none` when
the history is empty or nothing matches. -/
def resolve_version_tag (available_versions : List String) (version_tag : Option String) :
    Option String :=
  if available_versions.isEmpty then none
  else
    match version_tag with
    | none => available_versions.getLast?
    | some v =>
      available_versions.reverse.find?
        (fun tag => (v == tag) || chars_contains (tag_part tag) v.data)

/-- The matching predicate of the amended claim C9, written from the
amended words: an exact match on the full reference, or a substring
(not merely suffix) match against the tag part. -/
def spec_version_matches (v tag : String) : Bool :=
  (v == tag) || chars_contains (tag_part tag) v.data

end DockerContainerManager

/-! ## Lemmas on the dictionary model -/

section DictLemmas

variable {α : Type} {β : Type} [DecidableEq α]

@[simp] theorem dget_nil (k : α) : dget ([] : List (α × β)) k = none := rfl

@[simp] theorem dget_cons (k v) (t : List (α × β)) (k0) :
    dget ((k, v) :: t) k0 = if k = k0 then some v else dget t k0 := rfl

@[simp] theorem dkeys_nil : dkeys ([] : List (α × β)) = [] := rfl

@[simp] theorem dkeys_cons (k v) (t : List (α × β)) :
    dkeys ((k, v) :: t) = k :: dkeys t := rfl

@[simp] theorem dget_dput_self (l : List (α × β)) (k v) : dget (dput l k v) k = some v := by
  induction l with
  | nil => simp [dput]
  | cons e t ih =>
    obtain ⟨k1, v1⟩ := e
    by_cases h : k1 = k <;> simp [dput, h, ih]

theorem dget_dput_ne (l : List (α × β)) (k v) {k0} (h : k ≠ k0) :
    dget (dput l k v) k0 = dget l k0 := by
  induction l with
  | nil => simp [dput, h]
  | cons e t ih =>
    obtain ⟨k1, v1⟩ := e
    by_cases h1 : k1 = k
    · subst h1; simp [dput, h]
    · simp [dput, h1, ih]

theorem dget_eq_none_iff (l : List (α × β)) (k) :
    dget l k = none ↔ ∀ e ∈ l, e.1 ≠ k := by
  induction l with
  | nil => simp
  | cons e t ih =>
    obtain ⟨k1, v1⟩ := e
    by_cases h : k1 = k <;> simp [h, ih]

@[simp] theorem dget_ddel_self (l : List (α × β)) (k) : dget (ddel l k) k = none := by
  induction l with
  | nil => simp [ddel]
  | cons e t ih =>
    obtain ⟨k1, v1⟩ := e
    by_cases h : k1 = k <;> simp [ddel, h, ih]

theorem dget_ddel_ne (l : List (α × β)) {k k0} (h : k0 ≠ k) :
    dget (ddel l k) k0 = dget l k0 := by
  induction l with
  | nil => simp [ddel]
  | cons e t ih =>
    obtain ⟨k1, v1⟩ := e
    by_cases h1 : k1 = k
    · subst h1; simp [ddel, Ne.symm h, ih]
    · by_cases h2 : k1 = k0
      · subst h2; simp [ddel, h, h1, ih]
      · simp [ddel, h1, h2, ih]

theorem ddel_dput_fresh (l : List (α × β)) (k v) (h : dget l k = none) :
    ddel (dput l k v) k = l := by
  induction l with
  | nil => simp [dput, ddel]
  | cons e t ih =>
    obtain ⟨k1, v1⟩ := e
    by_cases h1 : k1 = k
    · simp [h1] at h
    · simp [dget_cons, h1] at h
      simp [dput, h1, ddel, ih h]

@[simp] theorem dmem_iff_dget (l : List (α × β)) (k) :
    dmem l k = true ↔ ∃ v, dget l k = some v := by
  simp [dmem, Option.isSome_iff_exists]

theorem dmem_eq_false_iff (l : List (α × β)) (k) :
    dmem l k = false ↔ dget l k = none := by
  cases h : dget l k <;> simp [dmem, h]

@[simp] theorem dmem_ddel_self (l : List (α × β)) (k) : dmem (ddel l k) k = false := by
  simp [dmem_eq_false_iff]

theorem mem_of_dget (l : List (α × β)) (k v) (h : dget l k = some v) : (k, v) ∈ l := by
  induction l with
  | nil => simp at h
  | cons e t ih =>
    obtain ⟨k1, v1⟩ := e
    by_cases h1 : k1 = k
    · subst h1; simp at h; simp [h]
    · simp [h1] at h
      exact List.mem_cons_of_mem _ (ih h)

theorem mem_dkeys_iff (l : List (α × β)) (k) :
    k ∈ dkeys l ↔ ∃ v, (k, v) ∈ l := by
  constructor
  · intro h
    rcases List.mem_map.mp h with ⟨⟨a, b⟩, hm, rfl⟩
    exact ⟨b, hm⟩
  · rintro ⟨v, hv⟩
    exact List.mem_map_of_mem Prod.fst hv

theorem not_mem_dkeys_of_dget_none (l : List (α × β)) (k) (h : dget l k = none) :
    k ∉ dkeys l := by
  intro hmem
  rcases (mem_dkeys_iff l k).mp hmem with ⟨v, hv⟩
  exact ((dget_eq_none_iff l k).mp h _ hv) rfl

theorem dget_of_mem_nodup (l : List (α × β)) (k v) (hn : (dkeys l).Nodup)
    (h : (k, v) ∈ l) : dget l k = some v := by
  induction l with
  | nil => simp at h
  | cons e t ih =>
    obtain ⟨k1, v1⟩ := e
    simp only [dkeys_cons, List.nodup_cons] at hn
    rcases List.mem_cons.mp h with h1 | h1
    · simp at h1
      obtain ⟨rfl, rfl⟩ := h1
      simp
    · have hk : k1 ≠ k := by
        intro he
        exact hn.1 (by rw [he]; exact (mem_dkeys_iff t k).mpr ⟨v, h1⟩)
      simp [hk]
      exact ih hn.2 h1

theorem dkeys_dput (l : List (α × β)) (k v) :
    dkeys (dput l k v) = if dmem l k then dkeys l else dkeys l ++ [k] := by
  induction l with
  | nil => simp [dput, dmem]
  | cons e t ih =>
    obtain ⟨k1, v1⟩ := e
    by_cases h : k1 = k
    · subst h; simp [dput, dmem]
    · simp only [dput, if_neg h, dkeys_cons, ih]
      have : dmem ((k1, v1) :: t) k = dmem t k := by simp [dmem, h]
      rw [this]
      by_cases h2 : dmem t k <;> simp [h2]

theorem dkeys_dput_nodup (l : List (α × β)) (k v) (h : (dkeys l).Nodup) :
    (dkeys (dput l k v)).Nodup := by
  rw [dkeys_dput]
  by_cases hm : dmem l k
  · simp [hm, h]
  · have hmf : dmem l k = false := by
      cases hdm : dmem l k
      · rfl
      · exact absurd hdm hm
    have hk : k ∉ dkeys l :=
      not_mem_dkeys_of_dget_none l k ((dmem_eq_false_iff l k).mp hmf)
    rw [if_neg hm]
    rw [List.nodup_append]
    refine ⟨h, List.nodup_singleton k, ?_⟩
    intro a ha hb
    rw [List.mem_singleton] at hb
    rw [hb] at ha
    exact hk ha

theorem dkeys_ddel (l : List (α × β)) (k) :
    dkeys (ddel l k) = (dkeys l).filter (fun a => decide (a ≠ k)) := by
  induction l with
  | nil => rfl
  | cons e t ih =>
    obtain ⟨k1, v1⟩ := e
    simp only [ddel, dkeys_cons, List.filter_cons]
    by_cases h : k1 = k
    · subst h
      simp [ih]
    · simp [h, ih]

theorem dkeys_ddel_nodup (l : List (α × β)) (k) (h : (dkeys l).Nodup) :
    (dkeys (ddel l k)).Nodup := by
  rw [dkeys_ddel]
  exact h.filter _

theorem dmem_dkeys_mem (l : List (α × β)) (k) (h : k ∈ dkeys l) : dmem l k = true := by
  rcases (mem_dkeys_iff l k).mp h with ⟨v, hv⟩
  cases hd : dget l k with
  | none => exact absurd rfl ((dget_eq_none_iff l k).mp hd _ hv)
  | some w => simp [dmem, hd]

theorem dkeys_dmodify (l : List (α × β)) (k) (f : β → β) :
    dkeys (dmodify l k f) = dkeys l := by
  induction l with
  | nil => rfl
  | cons e t ih =>
    obtain ⟨k1, v1⟩ := e
    by_cases h : k1 = k <;> simp [dmodify, h, ih]

theorem mem_dmodify (l : List (α × β)) (k) (f : β → β) (e : α × β)
    (h : e ∈ dmodify l k f) : e ∈ l ∨ ∃ v0, (k, v0) ∈ l ∧ e = (k, f v0) := by
  induction l with
  | nil => simp [dmodify] at h
  | cons a t ih =>
    obtain ⟨k1, v1⟩ := a
    by_cases h1 : k1 = k
    · subst h1
      simp only [dmodify, if_pos rfl] at h
      rcases List.mem_cons.mp h with h2 | h2
      · right
        exact ⟨v1, List.mem_cons_self _ _, h2⟩
      · left
        exact List.mem_cons_of_mem _ h2
    · simp only [dmodify, if_neg h1] at h
      rcases List.mem_cons.mp h with h2 | h2
      · left; simp [h2]
      · rcases ih h2 with h3 | ⟨v0, hv0, he⟩
        · left; exact List.mem_cons_of_mem _ h3
        · right; exact ⟨v0, List.mem_cons_of_mem _ hv0, he⟩

end DictLemmas

/-! ## Lemmas on the port allocator -/

namespace PortManager

theorem foldl_min_mem (t : List Nat) : ∀ (a : Nat), t.foldl Nat.min a ∈ a :: t := by
  induction t with
  | nil => intro a; simp
  | cons b t ih =>
    intro a
    rw [List.foldl_cons]
    rcases List.mem_cons.mp (ih (Nat.min a b)) with h1 | h1
    · rw [h1]
      rcases Nat.le_total a b with hab | hab
      · have h2 : Nat.min a b = a := Nat.min_eq_left hab
        rw [h2]
        exact List.mem_cons_self _ _
      · have h2 : Nat.min a b = b := Nat.min_eq_right hab
        rw [h2]
        exact List.mem_cons_of_mem _ (List.mem_cons_self _ _)
    · exact List.mem_cons_of_mem _ (List.mem_cons_of_mem _ h1)

theorem py_min_mem (l : List Nat) (m : Nat) (h : py_min l = some m) : m ∈ l := by
  cases l with
  | nil => simp [py_min] at h
  | cons a t =>
    simp [py_min] at h
    subst h
    exact foldl_min_mem t a

theorem py_choice_mem (l : List Nat) (pick m : Nat) (h : py_choice l pick = some m) :
    m ∈ l := by
  cases l with
  | nil => simp [py_choice] at h
  | cons a t =>
    simp [py_choice] at h
    subst h
    apply List.getElem_mem

theorem mem_available_iff (s : PMState) (p : Nat) :
    p ∈ get_available_ports s ↔
      (s.config.range_start ≤ p ∧ p < s.config.range_start +
        (s.config.range_end + 1 - s.config.range_start)) ∧
      p ∉ s.config.reserved_ports ∧ dmem s.allocated_ports p = false := by
  simp only [get_available_ports, List.mem_filter, List.mem_range'_1, Bool.and_eq_true,
    Bool.not_eq_true', decide_eq_false_iff_not]

theorem available_is_available (s : PMState) (p : Nat) (h : p ∈ get_available_ports s) :
    is_port_available s p = true := by
  rw [mem_available_iff] at h
  obtain ⟨⟨h1, h2⟩, h3, h4⟩ := h
  have h5 : p ≤ s.config.range_end := by omega
  simp [is_port_available, h1, h5, h3, h4]

/-- Any port drawn by the strategy branch comes from the free pool. -/
theorem choose_from_pool_available (s : PMState) (pick : Nat) (p : Nat)
    (h : choose_from_pool s pick = some p) : is_port_available s p = true := by
  unfold choose_from_pool at h
  simp only at h
  by_cases hemp : (get_available_ports s).isEmpty
  · simp [hemp] at h
  · simp only [hemp, Bool.false_eq_true, if_false] at h
    by_cases hs1 : s.config.strategy = "sequential"
    · simp only [hs1, if_true] at h
      exact available_is_available s p (py_min_mem _ _ h)
    · simp only [hs1, if_false] at h
      by_cases hs2 : s.config.strategy = "random"
      · simp only [hs2, if_true] at h
        cases hc : py_choice (s.config.prefer_ranges.foldl
            (fun (acc : List Nat) (r : Nat × Nat) => acc ++ (get_available_ports s).filter
              (fun q2 => decide (r.1 ≤ q2) && decide (q2 ≤ r.2))) []) pick with
        | some x =>
          rw [hc] at h
          simp at h
          subst h
          apply available_is_available
          have hx := py_choice_mem _ _ _ hc
          have hsub : ∀ (init : List Nat),
              (∀ y ∈ init, y ∈ get_available_ports s) →
              ∀ y ∈ s.config.prefer_ranges.foldl
                (fun (acc : List Nat) (r : Nat × Nat) => acc ++ (get_available_ports s).filter
                  (fun q2 => decide (r.1 ≤ q2) && decide (q2 ≤ r.2))) init,
                y ∈ get_available_ports s := by
            intro init hinit
            induction s.config.prefer_ranges generalizing init with
            | nil => exact hinit
            | cons r rs ihr =>
              intro y hy
              refine ihr _ ?_ y hy
              intro z hz
              rcases List.mem_append.mp hz with hz1 | hz1
              · exact hinit z hz1
              · exact (List.mem_filter.mp hz1).1
          exact hsub [] (by simp) _ hx
        | none =>
          rw [hc] at h
          exact available_is_available s p (py_choice_mem _ _ _ h)
      · simp [hs2] at h

/-- Any port selected by `choose_port` is available. -/
theorem choose_port_available (s : PMState) (pref : Option Nat) (pick : Nat) (p : Nat)
    (h : choose_port s pref pick = some p) : is_port_available s p = true := by
  unfold choose_port at h
  cases pref with
  | some pp =>
    by_cases hava : is_port_available s pp
    · simp only [hava, if_true] at h
      simp at h
      rw [← h]
      exact hava
    · simp only [hava, Bool.false_eq_true, if_false] at h
      exact choose_from_pool_available s pick p h
  | none =>
    simp only at h
    exact choose_from_pool_available s pick p h

/-- Specification of a successful allocation: the granted port was
available, and the state change is exactly one table insert (persisted). -/
theorem allocate_port_some (s : PMState) (svc : String) (cid : Option Nat)
    (pref : Option Nat) (pick now : Nat) (p : Nat) (s1 : PMState)
    (h : allocate_port s svc cid pref pick now = (some p, s1)) :
    is_port_available s p = true ∧
    s1.allocated_ports = dput s.allocated_ports p ⟨svc, now, cid⟩ ∧
    s1.disk = s1.allocated_ports ∧ s1.config = s.config := by
  unfold allocate_port at h
  cases hc : choose_port s pref pick with
  | none => rw [hc] at h; simp at h
  | some q =>
    rw [hc] at h
    simp [mark_port_allocated, save_allocated_ports] at h
    obtain ⟨hqp, hs1⟩ := h
    subst hqp
    refine ⟨choose_port_available s pref pick _ hc, ?_, ?_, ?_⟩ <;> simp [← hs1]

/-- A failed allocation leaves the state untouched. -/
theorem allocate_port_none (s : PMState) (svc : String) (cid : Option Nat)
    (pref : Option Nat) (pick now : Nat) (s1 : PMState)
    (h : allocate_port s svc cid pref pick now = (none, s1)) : s1 = s := by
  unfold allocate_port at h
  cases hc : choose_port s pref pick with
  | none => rw [hc] at h; simp at h; exact h.symm
  | some q => rw [hc] at h; simp at h

end PortManager

/-! ## Claim C8: broker client failure semantics -/

theorem send_request_transport_none :
    ∀ (r : Nat) (attempts : List HttpAttempt), r ≤ attempts.length →
      (∀ a ∈ attempts.take r, is_transport_failure a = true) →
      send_request r attempts = none := by
  intro r
  induction r with
  | zero => intro attempts _ _; rfl
  | succ n ih =>
    intro attempts hlen htf
    cases attempts with
    | nil => simp at hlen
    | cons a rest =>
      have hrec : (if n = 0 then none else send_request n rest) = none := by
        by_cases hn : n = 0
        · simp [hn]
        · simp only [hn, if_false]
          apply ih rest
          · simpa using Nat.le_of_succ_le_succ (by simpa using hlen)
          · intro b hb
            apply htf b
            rw [List.take_succ_cons]
            exact List.mem_cons_of_mem _ hb
      have ha : is_transport_failure a = true := by
        apply htf a
        rw [List.take_succ_cons]
        exact List.mem_cons_self _ _
      cases a with
      | timeout => simpa only [send_request] using hrec
      | httpError => simpa only [send_request] using hrec
      | connError => simpa only [send_request] using hrec
      | unexpectedError => simp [is_transport_failure] at ha
      | jsonOk r0 => simp [is_transport_failure] at ha
      | jsonDecodeError e0 => simp [is_transport_failure] at ha
      | nonJson s0 m0 t0 => simp [is_transport_failure] at ha

/-- C8: after exhausting `retry_count` attempts that all end in transport
failures (timeout, HTTP 4xx/5xx error, connection error), `_send_request`
returns the transport-failure sentinel `None`, which is distinct from any
logical rejection (a response dict with `status = 0` and a message);
and a JSON decode error on a received response resolves the call at once
as a logical failure (`{"status": 0, ...}`), consuming a single attempt
with no retry. -/
theorem claim_c8 :
    (∀ (r : Nat) (attempts : List HttpAttempt), 1 ≤ r → r ≤ attempts.length →
      (∀ a ∈ attempts.take r, is_transport_failure a = true) →
      send_request r attempts = none) ∧
    (∀ (r : Nat) (rest : List HttpAttempt) (emsg : String), 1 ≤ r →
      send_request r (HttpAttempt.jsonDecodeError emsg :: rest) =
        some ⟨0, "JSON Decode Error: " ++ emsg⟩) ∧
    (∀ (st : Nat) (m : String), (none : Option NpsResult) ≠ some ⟨st, m⟩) := by
  refine ⟨fun r attempts _ h2 h3 => send_request_transport_none r attempts h2 h3, ?_, ?_⟩
  · intro r rest emsg hr
    cases r with
    | zero => omega
    | succ n => rfl
  · intro st m h
    exact Option.noConfusion h

/-- Witness for C8 at concrete inputs. -/
theorem claim_c8_witness :
    send_request 3 [HttpAttempt.timeout, HttpAttempt.connError, HttpAttempt.httpError] =
      none ∧
    send_request 3 [HttpAttempt.jsonDecodeError "bad", HttpAttempt.timeout,
      HttpAttempt.timeout] = some ⟨0, "JSON Decode Error: " ++ "bad"⟩ :=
  ⟨claim_c8.1 3 [HttpAttempt.timeout, HttpAttempt.connError, HttpAttempt.httpError]
      (by decide) (by decide) (by decide),
   claim_c8.2.1 3 [HttpAttempt.timeout, HttpAttempt.timeout] "bad" (by decide)⟩

/-! ## Claim C7: release after allocate -/

/-- C7: a port granted by `allocate_port` is immediately releasable:
`release_port` returns `True`, afterwards the port is available again and
a subsequent `allocate_port` naming it as the preferred port returns it;
and `release_port` on a port that is not allocated returns `False` and
leaves the state exactly as it was. -/
theorem claim_c7 :
    (∀ (s : PMState) (svc : String) (cid : Option Nat) (pref : Option Nat)
      (pick now x : Nat) (s1 : PMState),
      PortManager.allocate_port s svc cid pref pick now = (some x, s1) →
      (PortManager.release_port s1 x).1 = true ∧
      PortManager.is_port_available (PortManager.release_port s1 x).2 x = true ∧
      (∀ svc2 cid2 pick2 now2,
        (PortManager.allocate_port (PortManager.release_port s1 x).2 svc2 cid2 (some x)
          pick2 now2).1 = some x)) ∧
    (∀ (s : PMState) (port : Nat), dmem s.allocated_ports port = false →
      PortManager.release_port s port = (false, s)) := by
  constructor
  · intro s svc cid pref pick now x s1 h
    obtain ⟨hav, htbl, hdisk, hcfg⟩ := PortManager.allocate_port_some s svc cid pref pick now
      x s1 h
    have hfresh : dget s.allocated_ports x = none := by
      have := hav
      simp only [PortManager.is_port_available, Bool.and_eq_true, Bool.not_eq_true'] at this
      exact (dmem_eq_false_iff _ _).mp this.2
    have hmem1 : dmem s1.allocated_ports x = true := by
      rw [htbl]
      simp
    have hrel : PortManager.release_port s1 x =
        (true, PortManager.save_allocated_ports
          { s1 with allocated_ports := ddel s1.allocated_ports x }) := by
      unfold PortManager.release_port
      rw [if_pos hmem1]
    have htbl2 : (PortManager.release_port s1 x).2.allocated_ports = s.allocated_ports := by
      rw [hrel]
      simp [PortManager.save_allocated_ports, htbl]
      exact ddel_dput_fresh _ _ _ hfresh
    have hcfg2 : (PortManager.release_port s1 x).2.config = s.config := by
      rw [hrel]
      simpa [PortManager.save_allocated_ports] using hcfg
    have hav2 : PortManager.is_port_available (PortManager.release_port s1 x).2 x = true := by
      simp only [PortManager.is_port_available, htbl2, hcfg2]
      simpa only [PortManager.is_port_available] using hav
    refine ⟨by rw [hrel], hav2, ?_⟩
    intro svc2 cid2 pick2 now2
    unfold PortManager.allocate_port
    have hcp : PortManager.choose_port (PortManager.release_port s1 x).2 (some x) pick2 =
        some x := by
      unfold PortManager.choose_port
      simp [hav2]
    rw [hcp]
  · intro s port h
    unfold PortManager.release_port
    rw [if_neg (by simp [h])]

/-- Witness for C7 at a concrete allocator state. -/
theorem claim_c7_witness :
    (PortManager.release_port
      (PortManager.allocate_port
        ⟨⟨10000, 10001, [], "sequential", []⟩, [], []⟩ "ssh" none none 0 5).2 10000).1 =
      true ∧
    PortManager.release_port ⟨⟨10000, 10001, [], "sequential", []⟩, [], []⟩ 10000 =
      (false, ⟨⟨10000, 10001, [], "sequential", []⟩, [], []⟩) := by
  constructor
  · exact (claim_c7.1 ⟨⟨10000, 10001, [], "sequential", []⟩, [], []⟩ "ssh" none none 0 5
      10000 _ (by decide)).1
  · exact claim_c7.2 ⟨⟨10000, 10001, [], "sequential", []⟩, [], []⟩ 10000 (by decide)

/-! ## Claim C6: create_tunnel releases the port when the broker add fails -/

/-- C6: when the port allocation inside `create_tunnel` succeeds but the
broker `add_tunnel` call fails, the call returns `None`, the local cache
is unchanged, and the allocation table is exactly what it was before the
call (the allocated port has been released). -/
theorem claim_c6 (st : DTMState) (env : Env) (target svc : String) (cid0 : Option Nat)
    (pref : Option Nat) (remark0 : Option String)
    (hadd : env.addQ.headD false = false)
    (halloc : (PortManager.allocate_port st.pm svc (some (cid0.getD st.default_client_id))
      pref (env.pickQ.headD 0) env.now).1.isSome = true) :
    (DynamicTunnelManager.create_tunnel st env target svc cid0 pref remark0).1 = none ∧
    (DynamicTunnelManager.create_tunnel st env target svc cid0 pref
      remark0).2.1.tunnel_mappings = st.tunnel_mappings ∧
    (DynamicTunnelManager.create_tunnel st env target svc cid0 pref
      remark0).2.1.pm.allocated_ports = st.pm.allocated_ports := by
  cases hma : PortManager.allocate_port st.pm svc (some (cid0.getD st.default_client_id))
      pref (env.pickQ.headD 0) env.now with
  | mk port0 pm1 =>
    cases port0 with
    | none => rw [hma] at halloc; simp at halloc
    | some p =>
      obtain ⟨hav, htbl, hdisk, hcfg⟩ := PortManager.allocate_port_some _ _ _ _ _ _ _ _ hma
      have hfresh : dget st.pm.allocated_ports p = none := by
        simp only [PortManager.is_port_available, Bool.and_eq_true,
          Bool.not_eq_true'] at hav
        exact (dmem_eq_false_iff _ _).mp hav.2
      unfold DynamicTunnelManager.create_tunnel
      simp only [popPick, popAdd, hma, hadd, Bool.not_false, if_true]
      have hmem1 : dmem pm1.allocated_ports p = true := by
        rw [htbl]; simp
      refine ⟨by trivial, by trivial, ?_⟩
      unfold PortManager.release_port
      rw [if_pos hmem1]
      simp [PortManager.save_allocated_ports, htbl]
      exact ddel_dput_fresh _ _ _ hfresh

/-- Witness for C6 at a concrete orchestrator state. -/
theorem claim_c6_witness :
    (DynamicTunnelManager.create_tunnel
      ⟨2, [], ⟨⟨10000, 10001, [], "sequential", []⟩, [], []⟩⟩
      ⟨[false], [], [], [], [], [], 7⟩ "10.0.0.5:22" "ssh" none none none).1 = none ∧
    (DynamicTunnelManager.create_tunnel
      ⟨2, [], ⟨⟨10000, 10001, [], "sequential", []⟩, [], []⟩⟩
      ⟨[false], [], [], [], [], [], 7⟩ "10.0.0.5:22" "ssh" none none
      none).2.1.pm.allocated_ports = [] := by
  have h := claim_c6 ⟨2, [], ⟨⟨10000, 10001, [], "sequential", []⟩, [], []⟩⟩
    ⟨[false], [], [], [], [], [], 7⟩ "10.0.0.5:22" "ssh" none none none
    (by decide) (by decide)
  exact ⟨h.1, h.2.2⟩

/-! ## Claim C3: update_tunnel with a port change -/

/-- C3 (code bug): a port-changing `update_tunnel` on a cached tunnel id,
with the new port available, always fails: `_mark_port_allocated` returns
`None`, the guard `if not self.port_manager._mark_port_allocated(...)`
therefore always fires, and the method returns `False` after the new port
has already been inserted into the allocation table.  The broker is never
called (the update queue is not consumed), the cache is unchanged, the
tunnel keeps its old port allocated, and the new port is left allocated
as well - so a failed update leaves two allocated ports for the tunnel,
not one. -/
theorem claim_c3 (st : DTMState) (env : Env) (tid : Nat) (info : TunnelInfo) (p : Nat)
    (hmap : dget st.tunnel_mappings tid = some info) (hne : p ≠ info.port)
    (hav : PortManager.is_port_available st.pm p = true) :
    (DynamicTunnelManager.update_tunnel st env tid none (some p) none).1 = false ∧
    (DynamicTunnelManager.update_tunnel st env tid none (some p) none).2.2 = env ∧
    (DynamicTunnelManager.update_tunnel st env tid none (some p)
      none).2.1.tunnel_mappings = st.tunnel_mappings ∧
    PortManager.is_port_allocated
      (DynamicTunnelManager.update_tunnel st env tid none (some p) none).2.1.pm p = true ∧
    PortManager.is_port_allocated
      (DynamicTunnelManager.update_tunnel st env tid none (some p) none).2.1.pm info.port =
      PortManager.is_port_allocated st.pm info.port := by
  have hbeq : (p == info.port) = false := by
    simp [hne]
  unfold DynamicTunnelManager.update_tunnel
  rw [hmap]
  simp only [Option.getD, hbeq, beq_self_eq_true, Bool.true_and, Bool.and_true,
    Bool.false_and, Bool.and_false, Bool.false_eq_true, if_false, bne, Bool.not_false,
    if_true, hav, Bool.not_true, PortManager.mark_port_allocated, py_truthy]
  refine ⟨by trivial, by trivial, by trivial, ?_, ?_⟩
  · simp [PortManager.is_port_allocated]
  · simp only [PortManager.is_port_allocated, dmem]
    rw [dget_dput_ne _ _ _ hne]

/-- Witness for C3 at a concrete orchestrator state. -/
theorem claim_c3_witness :
    (DynamicTunnelManager.update_tunnel
      ⟨2, [(1, ⟨10000, "ssh", 2, "10.0.0.5:22", "r"⟩)],
        ⟨⟨10000, 10010, [], "sequential", []⟩, [(10000, ⟨"ssh", 0, some 2⟩)],
          [(10000, ⟨"ssh", 0, some 2⟩)]⟩⟩
      ⟨[], [], [], [true], [], [], 9⟩ 1 none (some 10001) none).1 = false ∧
    PortManager.is_port_allocated
      (DynamicTunnelManager.update_tunnel
        ⟨2, [(1, ⟨10000, "ssh", 2, "10.0.0.5:22", "r"⟩)],
          ⟨⟨10000, 10010, [], "sequential", []⟩, [(10000, ⟨"ssh", 0, some 2⟩)],
            [(10000, ⟨"ssh", 0, some 2⟩)]⟩⟩
        ⟨[], [], [], [true], [], [], 9⟩ 1 none (some 10001) none).2.1.pm 10001 = true := by
  have h := claim_c3
    ⟨2, [(1, ⟨10000, "ssh", 2, "10.0.0.5:22", "r"⟩)],
      ⟨⟨10000, 10010, [], "sequential", []⟩, [(10000, ⟨"ssh", 0, some 2⟩)],
        [(10000, ⟨"ssh", 0, some 2⟩)]⟩⟩
    ⟨[], [], [], [true], [], [], 9⟩ 1 ⟨10000, "ssh", 2, "10.0.0.5:22", "r"⟩ 10001
    (by decide) (by decide) (by decide)
  exact ⟨h.1, h.2.2.2.1⟩

/-! ## Claim C9: snapshot version resolution -/

theorem find?_first {α : Type} (p : α → Bool) :
    ∀ (l : List α) (t : α), l.find? p = some t →
      ∃ l1 l2, l = l1 ++ t :: l2 ∧ (∀ u ∈ l1, p u = false) ∧ p t = true := by
  intro l
  induction l with
  | nil => intro t h; simp at h
  | cons a rest ih =>
    intro t h
    by_cases hp : p a
    · rw [List.find?_cons_of_pos _ hp] at h
      simp at h
      subst h
      exact ⟨[], rest, rfl, by simp, hp⟩
    · rw [List.find?_cons_of_neg _ (by simpa using hp)] at h
      obtain ⟨l1, l2, heq, hall, hpt⟩ := ih t h
      refine ⟨a :: l1, l2, by rw [heq]; rfl, ?_, hpt⟩
      intro u hu
      rcases List.mem_cons.mp hu with h1 | h1
      · subst h1; simpa using hp
      · exact hall u h1

/-- C9 (amended): version resolution in `start_from_snapshot` takes the
latest history entry when no tag is requested, fails on an empty history,
and otherwise picks the most recent history entry that either equals the
requested tag exactly or contains it as a substring of its tag part
(substring, not merely suffix, is what the source `in` test implements);
it fails when no entry matches. -/
theorem claim_c9 (history : List String) :
    (DockerContainerManager.resolve_version_tag history none = history.getLast?) ∧
    (∀ v, history = [] →
      DockerContainerManager.resolve_version_tag history (some v) = none) ∧
    (∀ v t, DockerContainerManager.resolve_version_tag history (some v) = some t →
      ∃ pre post, history = pre ++ t :: post ∧
        DockerContainerManager.spec_version_matches v t = true ∧
        ∀ u ∈ post, DockerContainerManager.spec_version_matches v u = false) ∧
    (∀ v, DockerContainerManager.resolve_version_tag history (some v) = none →
      ∀ u ∈ history, DockerContainerManager.spec_version_matches v u = false) := by
  refine ⟨?_, ?_, ?_, ?_⟩
  · cases history with
    | nil => simp [DockerContainerManager.resolve_version_tag]
    | cons a t => simp [DockerContainerManager.resolve_version_tag]
  · intro v hh
    subst hh
    simp [DockerContainerManager.resolve_version_tag]
  · intro v t h
    unfold DockerContainerManager.resolve_version_tag at h
    by_cases hemp : history.isEmpty
    · simp [hemp] at h
    · simp only [hemp, Bool.false_eq_true, if_false] at h
      obtain ⟨l1, l2, heq, hall, hpt⟩ := find?_first _ _ _ h
      have hh : history = l2.reverse ++ t :: l1.reverse := by
        have h2 := congrArg List.reverse heq
        rw [List.reverse_reverse] at h2
        rw [h2]
        simp
      refine ⟨l2.reverse, l1.reverse, hh, hpt, ?_⟩
      intro u hu
      exact hall u (by simpa using hu)
  · intro v h u hu
    unfold DockerContainerManager.resolve_version_tag at h
    by_cases hemp : history.isEmpty
    · rw [List.isEmpty_iff] at hemp
      subst hemp
      simp at hu
    · simp only [hemp, Bool.false_eq_true, if_false] at h
      rw [List.find?_eq_none] at h
      have := h u (by simpa using hu)
      simpa [DockerContainerManager.spec_version_matches] using this

/-- C9 counterexample: the source performs a substring match, not a
suffix match.  The history entry `demo:v12_20250101` is selected for the
request `v1` although `v1` neither equals the entry nor is a suffix of
its tag part `v12_20250101`. -/
theorem claim_c9_counterexample :
    DockerContainerManager.resolve_version_tag ["demo:v12_20250101"] (some "v1") =
      some "demo:v12_20250101" ∧
    ("v1" : String) ≠ "demo:v12_20250101" ∧
    tag_part "demo:v12_20250101" = "v12_20250101".data ∧
    ¬ List.IsSuffix ("v1".data) ("v12_20250101".data) := by
  refine ⟨by decide, by decide, by decide, by decide⟩

/-- Witness for C9 at a concrete history. -/
theorem claim_c9_witness :
    DockerContainerManager.resolve_version_tag ["demo:v1_a", "demo:v2_b"] none =
      some "demo:v2_b" ∧
    (∃ pre post, ["demo:v1_a", "demo:v2_b"] = pre ++ "demo:v2_b" :: post ∧
      DockerContainerManager.spec_version_matches "v2_b" "demo:v2_b" = true ∧
      ∀ u ∈ post, DockerContainerManager.spec_version_matches "v2_b" u = false) :=
  ⟨((claim_c9 ["demo:v1_a", "demo:v2_b"]).1).trans (by decide),
   (claim_c9 ["demo:v1_a", "demo:v2_b"]).2.2.1 "v2_b" "demo:v2_b" (by decide)⟩

/-! ## Claim C4: stop_container return value -/

theorem stop_tunnel_loop_tunnels (l : List (String × TunnelRec)) :
    ∀ (s : CMState) (env : Env),
      (DockerContainerManager.stop_tunnel_loop l s env).2.1.container_tunnels =
        s.container_tunnels := by
  induction l with
  | nil => intro s env; rfl
  | cons e rest ih =>
    intro s env
    obtain ⟨svc, tr⟩ := e
    cases htid : tr.tunnel_id with
    | none =>
      simp only [DockerContainerManager.stop_tunnel_loop, htid]
      exact ih s env
    | some tid =>
      simp only [DockerContainerManager.stop_tunnel_loop, htid]
      exact ih _ _

/-- C4 (code bug): the return expression of `stop_container`,
`(container is not None or not docker.errors.NotFound) and tunnel_cleanup_success`,
evaluates its second disjunct on a class object, so it reduces to
`container is not None and tunnel_cleanup_success`.  Consequently a stop
on a missing container returns `False` even though the tunnel cleanup ran
and succeeded (the claim and the source comment call a missing container
an acceptable outcome), while a stop whose runtime `stop()` call raises
an API error returns `True` when the cleanup succeeds (the claim calls
that outcome unacceptable).  Tunnel teardown itself is attempted
unconditionally: any recorded binding is popped whether or not the
container was found. -/
theorem claim_c4 :
    (∀ (s : CMState) (env : Env) (name : String),
      dmem s.docker name = false →
      dget s.container_tunnels name = none →
      (DockerContainerManager.stop_container s env name).1 = false) ∧
    (∀ (s : CMState) (env : Env) (name : String),
      dmem s.docker name = true →
      env.stopErrQ.headD false = true →
      dget s.container_tunnels name = none →
      (DockerContainerManager.stop_container s env name).1 = true) ∧
    (∀ (s : CMState) (env : Env) (name : String),
      dget ((DockerContainerManager.stop_container s env name).2.1.container_tunnels)
        name = none) := by
  refine ⟨?_, ?_, ?_⟩
  · intro s env name hfound htun
    unfold DockerContainerManager.stop_container
    simp only [hfound, Bool.false_and, if_false, Bool.false_eq_true, htun,
      DockerContainerManager.not_notfound_class, Bool.or_false, Bool.and_true]
  · intro s env name hfound herr htun
    unfold DockerContainerManager.stop_container
    simp only [hfound, popStopErr, herr, if_true, Bool.true_and, Bool.not_true,
      Bool.and_false, if_false, htun, DockerContainerManager.not_notfound_class,
      Bool.or_false, Bool.and_true]
  · intro s env name
    unfold DockerContainerManager.stop_container
    cases htun : dget s.container_tunnels name with
    | none =>
      simp only [htun]
    | some tmap =>
      simp only [htun]
      rw [stop_tunnel_loop_tunnels]
      simp [DockerContainerManager.save_container_states]

/-- Witness for C4 at concrete states: a missing container with no
tunnels returns `False`; a present container whose stop raises an API
error returns `True`. -/
theorem claim_c4_witness :
    (DockerContainerManager.stop_container
      ⟨⟨22, 8888, 5000, 1⟩, [], [], [], ([], []), [],
        ⟨2, [], ⟨⟨10000, 10010, [], "sequential", []⟩, [], []⟩⟩, []⟩
      ⟨[], [], [], [], [], [], 0⟩ "ghost").1 = false ∧
    (DockerContainerManager.stop_container
      ⟨⟨22, 8888, 5000, 1⟩, [], [], [], ([], []), [],
        ⟨2, [], ⟨⟨10000, 10010, [], "sequential", []⟩, [], []⟩⟩, [("c", true)]⟩
      ⟨[], [], [], [], [], [true], 0⟩ "c").1 = true :=
  ⟨claim_c4.1
     ⟨⟨22, 8888, 5000, 1⟩, [], [], [], ([], []), [],
       ⟨2, [], ⟨⟨10000, 10010, [], "sequential", []⟩, [], []⟩⟩, []⟩
     ⟨[], [], [], [], [], [], 0⟩ "ghost" (by decide) (by decide),
   claim_c4.2.1
     ⟨⟨22, 8888, 5000, 1⟩, [], [], [], ([], []), [],
       ⟨2, [], ⟨⟨10000, 10010, [], "sequential", []⟩, [], []⟩⟩, [("c", true)]⟩
     ⟨[], [], [], [], [], [true], 0⟩ "c" (by decide) (by decide) (by decide)⟩

/-! ## Claim C2: stop_and_commit never reaches the commit -/

/-- C2 (code bug): on every call where the container exists and
`stop_container` reports success, `stop_and_commit` raises `NameError`
instead of committing a snapshot: the assignment to `timestamp` is
indented into the failed-stop branch after its `return None`, so at the
tag construction `f"v{version}_{timestamp}"` the name `timestamp` is
unbound.  No successful snapshot, no `{sequence}_{timestamp}` tag and no
history append ever happens. -/
theorem claim_c2 (s : CMState) (env : Env) (name : String) (msg : Option String)
    (hfound : dmem s.docker name = true)
    (hstop : (DockerContainerManager.stop_container s env name).1 = true) :
    (DockerContainerManager.stop_and_commit s env name msg).1 =
      DockerContainerManager.CommitResult.nameError := by
  unfold DockerContainerManager.stop_and_commit
  simp only [hfound, hstop, Bool.not_true, Bool.false_eq_true, if_false]

/-- Witness for C2 at a concrete state: a present, stoppable container
with no tunnels. -/
theorem claim_c2_witness :
    (DockerContainerManager.stop_and_commit
      ⟨⟨22, 8888, 5000, 1⟩, [("c", "img")], [("c", ["img"])], [],
        ([("c", "img")], [("c", ["img"])]), [],
        ⟨2, [], ⟨⟨10000, 10010, [], "sequential", []⟩, [], []⟩⟩, [("c", true)]⟩
      ⟨[], [], [], [], [], [], 0⟩ "c" none).1 =
      DockerContainerManager.CommitResult.nameError :=
  claim_c2
    ⟨⟨22, 8888, 5000, 1⟩, [("c", "img")], [("c", ["img"])], [],
      ([("c", "img")], [("c", ["img"])]), [],
      ⟨2, [], ⟨⟨10000, 10010, [], "sequential", []⟩, [], []⟩⟩, [("c", true)]⟩
    ⟨[], [], [], [], [], [], 0⟩ "c" none (by decide) (by decide)

/-! ## Claim C5: the allocation-table invariant -/

theorem mem_dput {α : Type} {β : Type} [DecidableEq α] (l : List (α × β)) (k : α) (v : β)
    (e : α × β) (h : e ∈ dput l k v) : e ∈ l ∨ e = (k, v) := by
  induction l with
  | nil => simp [dput] at h; simp [h]
  | cons a t ih =>
    obtain ⟨k1, v1⟩ := a
    by_cases h1 : k1 = k
    · simp [dput, h1] at h
      rcases h with h | h
      · right; simp [h]
      · left; exact List.mem_cons_of_mem _ h
    · simp only [dput, if_neg h1] at h
      rcases List.mem_cons.mp h with h2 | h2
      · left; simp [h2]
      · rcases ih h2 with h3 | h3
        · left; exact List.mem_cons_of_mem _ h3
        · right; exact h3

theorem mem_ddel {α : Type} {β : Type} [DecidableEq α] (l : List (α × β)) (k : α)
    (e : α × β) (h : e ∈ ddel l k) : e ∈ l := by
  induction l with
  | nil => simp [ddel] at h
  | cons a t ih =>
    obtain ⟨k1, v1⟩ := a
    by_cases h1 : k1 = k
    · simp only [ddel, if_pos h1] at h
      exact List.mem_cons_of_mem _ (ih h)
    · simp only [ddel, if_neg h1] at h
      rcases List.mem_cons.mp h with h2 | h2
      · simp [h2]
      · exact List.mem_cons_of_mem _ (ih h2)

theorem port_inv_iff (s : PMState) :
    port_inv s = true ↔ (dkeys s.allocated_ports).Nodup ∧
      ∀ kv ∈ s.allocated_ports, s.config.range_start ≤ kv.1 ∧
        kv.1 ≤ s.config.range_end ∧ kv.1 ∉ s.config.reserved_ports := by
  simp only [port_inv, Bool.and_eq_true, decide_eq_true_eq, List.all_eq_true,
    Bool.not_eq_true', decide_eq_false_iff_not]
  constructor
  · rintro ⟨h1, h2⟩
    refine ⟨h1, fun kv hkv => ?_⟩
    obtain ⟨⟨a, b⟩, c⟩ := h2 kv hkv
    exact ⟨a, b, c⟩
  · rintro ⟨h1, h2⟩
    refine ⟨h1, fun kv hkv => ?_⟩
    obtain ⟨a, b, c⟩ := h2 kv hkv
    exact ⟨⟨a, b⟩, c⟩

theorem port_inv_release (s : PMState) (p : Nat) (h : port_inv s = true) :
    port_inv (PortManager.release_port s p).2 = true := by
  unfold PortManager.release_port
  by_cases hm : dmem s.allocated_ports p
  · rw [if_pos hm]
    rw [port_inv_iff] at h ⊢
    simp only [PortManager.save_allocated_ports]
    refine ⟨dkeys_ddel_nodup _ _ h.1, ?_⟩
    intro kv hkv
    exact h.2 kv (mem_ddel _ _ _ hkv)
  · rw [if_neg hm]
    exact h

theorem port_inv_allocate (s : PMState) (svc : String) (cid : Option Nat)
    (pref : Option Nat) (pick now : Nat) (h : port_inv s = true) :
    port_inv (PortManager.allocate_port s svc cid pref pick now).2 = true := by
  cases ha : PortManager.allocate_port s svc cid pref pick now with
  | mk r s1 =>
    cases r with
    | none =>
      have := PortManager.allocate_port_none s svc cid pref pick now s1 ha
      simpa [this] using h
    | some p =>
      obtain ⟨hav, htbl, hdisk, hcfg⟩ := PortManager.allocate_port_some _ _ _ _ _ _ _ _ ha
      simp only [PortManager.is_port_available, Bool.and_eq_true, Bool.not_eq_true',
        decide_eq_true_eq, decide_eq_false_iff_not] at hav
      rw [port_inv_iff] at h
      simp only [port_inv_iff, htbl, hcfg]
      refine ⟨dkeys_dput_nodup _ _ _ h.1, ?_⟩
      intro kv hkv
      rcases mem_dput _ _ _ _ hkv with h1 | h1
      · exact h.2 kv h1
      · rw [h1]
        exact ⟨hav.1.1.1, hav.1.1.2, hav.1.2⟩

theorem port_inv_create (st : DTMState) (env : Env) (target svc : String)
    (cid0 : Option Nat) (pref : Option Nat) (remark0 : Option String)
    (h : port_inv st.pm = true) :
    port_inv (DynamicTunnelManager.create_tunnel st env target svc cid0 pref
      remark0).2.1.pm = true := by
  unfold DynamicTunnelManager.create_tunnel
  simp only
  cases ha : (PortManager.allocate_port st.pm svc (some (cid0.getD st.default_client_id))
      pref (popPick env).1 env.now).1 with
  | none =>
    simp only [ha]
    have h2 := port_inv_allocate st.pm svc (some (cid0.getD st.default_client_id)) pref
      (popPick env).1 env.now h
    exact h2
  | some p =>
    simp only [ha]
    have h2 := port_inv_allocate st.pm svc (some (cid0.getD st.default_client_id)) pref
      (popPick env).1 env.now h
    by_cases haddv : (popAdd (popPick env).2).1
    · simp only [haddv, Bool.not_true, Bool.false_eq_true, if_false]
      cases hres : (DynamicTunnelManager.resolve_loop p 3 (popAdd (popPick env).2).2 none).1
        with
      | none => simpa using h2
      | some t =>
        by_cases ht : t = 0
        · simp only [hres, ht, if_pos]
          simpa using h2
        · simp only [hres, if_neg ht]
          simpa using h2
    · simp only [Bool.not_eq_true] at haddv
      simp only [haddv, Bool.not_false, if_true]
      exact port_inv_release _ p h2

theorem port_inv_delete (st : DTMState) (env : Env) (tid : Nat)
    (h : port_inv st.pm = true) :
    port_inv (DynamicTunnelManager.delete_tunnel st env tid).2.1.pm = true := by
  unfold DynamicTunnelManager.delete_tunnel
  cases hm : dget st.tunnel_mappings tid with
  | none => exact h
  | some info =>
    by_cases hok : (popDel env).1
    · simp only [hok, Bool.not_true, Bool.false_eq_true, if_false]
      exact port_inv_release _ _ h
    · simp only [Bool.not_eq_true] at hok
      simp only [hok, Bool.not_false, if_true]
      exact h

/-- C5 counterexample: the startup reconciliation marks any broker port
as allocated with no range or reservation check.  From an empty table
with the default configuration (range 10000 to 20000, port 80 reserved),
one reconciliation against a broker list holding a tunnel at port 80
produces a table where the invariant fails: port 80 is allocated though
it is reserved and below the range. -/
theorem claim_c5_counterexample :
    port_inv (run_ops [SysOp.opReconcile]
      (⟨2, [], ⟨⟨10000, 20000, [80, 443, 22, 8080, 8888], "random", []⟩, [], []⟩⟩,
       ⟨[], [[⟨1, 80, "", ""⟩]], [], [], [], [], 0⟩)).1.pm = false ∧
    PortManager.is_port_allocated (run_ops [SysOp.opReconcile]
      (⟨2, [], ⟨⟨10000, 20000, [80, 443, 22, 8080, 8888], "random", []⟩, [], []⟩⟩,
       ⟨[], [[⟨1, 80, "", ""⟩]], [], [], [], [], 0⟩)).1.pm 80 = true := by
  constructor
  · decide
  · decide

/-- C5 (amended): for every state reachable by allocate, release,
createTunnel and deleteTunnel operations (reconciliation excluded, which
the counterexample shows can violate it) from a state satisfying the
invariant, the allocation table holds at most one record per port and
every allocated port lies within the configured range and outside the
reserved set. -/
theorem claim_c5 (ops : List SysOp) (s0 : DTMState) (e0 : Env)
    (hops : ∀ op ∈ ops, op ≠ SysOp.opReconcile)
    (hinv : port_inv s0.pm = true) :
    port_inv (run_ops ops (s0, e0)).1.pm = true := by
  induction ops generalizing s0 e0 with
  | nil => exact hinv
  | cons op rest ih =>
    have hop : op ≠ SysOp.opReconcile := hops op (List.mem_cons_self _ _)
    have hrest : ∀ op2 ∈ rest, op2 ≠ SysOp.opReconcile :=
      fun op2 h2 => hops op2 (List.mem_cons_of_mem _ h2)
    rw [run_ops, List.foldl_cons]
    have hstep : port_inv (apply_op (s0, e0) op).1.pm = true := by
      cases op with
      | opAllocate svc cid pref pick now => exact port_inv_allocate _ _ _ _ _ _ hinv
      | opRelease port => exact port_inv_release _ _ hinv
      | opCreate target svc cid pref remark => exact port_inv_create _ _ _ _ _ _ _ hinv
      | opDelete tid => exact port_inv_delete _ _ _ hinv
      | opReconcile => exact absurd rfl hop
    have := ih (apply_op (s0, e0) op).1 (apply_op (s0, e0) op).2 hrest hstep
    simpa [run_ops] using this

/-- Witness for C5 on a concrete operation sequence. -/
theorem claim_c5_witness :
    port_inv (run_ops
      [SysOp.opAllocate "ssh" (some 1) none 0 5, SysOp.opRelease 10000,
       SysOp.opCreate "10.0.0.5:22" "ssh" none none none, SysOp.opDelete 4]
      (⟨2, [], ⟨⟨10000, 10005, [10001], "sequential", []⟩, [], []⟩⟩,
       ⟨[true], [[⟨4, 10000, "t", "r"⟩]], [true], [], [], [], 0⟩)).1.pm = true :=
  claim_c5
    [SysOp.opAllocate "ssh" (some 1) none 0 5, SysOp.opRelease 10000,
     SysOp.opCreate "10.0.0.5:22" "ssh" none none none, SysOp.opDelete 4]
    ⟨2, [], ⟨⟨10000, 10005, [10001], "sequential", []⟩, [], []⟩⟩
    ⟨[true], [[⟨4, 10000, "t", "r"⟩]], [true], [], [], [], 0⟩
    (by decide) (by decide)

/-! ## Operation spec lemmas for the orchestrator -/

theorem ddel_absent {α : Type} {β : Type} [DecidableEq α] (l : List (α × β)) (k : α)
    (h : dget l k = none) : ddel l k = l := by
  induction l with
  | nil => rfl
  | cons e t ih =>
    obtain ⟨k1, v1⟩ := e
    by_cases h1 : k1 = k
    · simp [h1] at h
    · simp [dget_cons, h1] at h
      simp [ddel, h1, ih h]

theorem mem_ddel_ne {α : Type} {β : Type} [DecidableEq α] (l : List (α × β)) (k : α)
    (e : α × β) (h : e ∈ ddel l k) : e.1 ≠ k := by
  induction l with
  | nil => simp [ddel] at h
  | cons a t ih =>
    obtain ⟨k1, v1⟩ := a
    by_cases h1 : k1 = k
    · simp only [ddel, if_pos h1] at h
      exact ih h
    · simp only [ddel, if_neg h1] at h
      rcases List.mem_cons.mp h with h2 | h2
      · rw [h2]; exact h1
      · exact ih h2

theorem ddel_sublist {α : Type} {β : Type} [DecidableEq α] (l : List (α × β)) (k : α) :
    (ddel l k).Sublist l := by
  induction l with
  | nil => simp [ddel]
  | cons a t ih =>
    obtain ⟨k1, v1⟩ := a
    by_cases h1 : k1 = k
    · simp only [ddel, if_pos h1]
      exact ih.cons _
    · simp only [ddel, if_neg h1]
      exact ih.cons₂ _

theorem dmem_dput_preserve {α : Type} {β : Type} [DecidableEq α] (l : List (α × β))
    (k q : α) (v : β) (h : dmem l q = true) : dmem (dput l k v) q = true := by
  by_cases hk : k = q
  · subst hk
    simp [dmem, dget_dput_self]
  · simp only [dmem] at h ⊢
    rw [dget_dput_ne _ _ _ hk]
    exact h

theorem dmem_ddel_ne_preserve {α : Type} {β : Type} [DecidableEq α] (l : List (α × β))
    (k q : α) (hq : q ≠ k) : dmem (ddel l k) q = dmem l q := by
  simp only [dmem]
  rw [dget_ddel_ne _ hq]

theorem map_dput_same {α : Type} {β γ : Type} [DecidableEq α] (f : β → γ)
    (l : List (α × β)) (k : α) (v i : β) (hg : dget l k = some i) (hf : f v = f i) :
    (dput l k v).map (fun kv => f kv.2) = l.map (fun kv => f kv.2) := by
  induction l with
  | nil => simp at hg
  | cons a t ih =>
    obtain ⟨k1, v1⟩ := a
    by_cases h1 : k1 = k
    · subst h1
      simp at hg
      simp [dput, hg, hf]
    · simp [dget_cons, h1] at hg
      simp [dput, h1, ih hg]

theorem ports_nodup_dput (l : List (Nat × TunnelInfo)) (k : Nat) (v : TunnelInfo)
    (h : (l.map (fun kv => kv.2.port)).Nodup)
    (hfresh : ∀ kv ∈ l, kv.2.port ≠ v.port) :
    ((dput l k v).map (fun kv => kv.2.port)).Nodup := by
  induction l with
  | nil => simp [dput]
  | cons a t ih =>
    obtain ⟨k1, v1⟩ := a
    simp only [List.map_cons, List.nodup_cons] at h
    by_cases h1 : k1 = k
    · subst h1
      simp only [dput, eq_self_iff_true, if_true, List.map_cons, List.nodup_cons]
      refine ⟨?_, h.2⟩
      intro hmem
      rcases List.mem_map.mp hmem with ⟨kv, hkv, hport⟩
      exact hfresh kv (List.mem_cons_of_mem _ hkv) hport
    · simp only [dput, if_neg h1, List.map_cons, List.nodup_cons]
      refine ⟨?_, ih h.2 (fun kv hkv => hfresh kv (List.mem_cons_of_mem _ hkv))⟩
      intro hmem
      rcases List.mem_map.mp hmem with ⟨kv, hkv, hport⟩
      rcases mem_dput _ _ _ _ hkv with h2 | h2
      · exact h.1 (List.mem_map.mpr ⟨kv, h2, hport⟩)
      · subst h2
        exact hfresh (k1, v1) (List.mem_cons_self _ _) (by rw [← hport])

namespace DynamicTunnelManager

/-- When `create_tunnel` fails, it changes neither the cache nor the
allocation table nor the configuration. -/
theorem create_tunnel_none_spec (st : DTMState) (env : Env) (target svc : String)
    (cid0 : Option Nat) (pref : Option Nat) (remark0 : Option String)
    (h : (create_tunnel st env target svc cid0 pref remark0).1 = none) :
    (create_tunnel st env target svc cid0 pref remark0).2.1.tunnel_mappings =
      st.tunnel_mappings ∧
    (create_tunnel st env target svc cid0 pref remark0).2.1.pm.allocated_ports =
      st.pm.allocated_ports ∧
    (create_tunnel st env target svc cid0 pref remark0).2.1.pm.config = st.pm.config ∧
    (create_tunnel st env target svc cid0 pref remark0).2.1.default_client_id =
      st.default_client_id := by
  unfold create_tunnel at h ⊢
  simp only at h ⊢
  cases ha : PortManager.allocate_port st.pm svc (some (cid0.getD st.default_client_id))
      pref (popPick env).1 env.now with
  | mk port0 pm1 =>
    cases port0 with
    | none =>
      have heq := PortManager.allocate_port_none _ _ _ _ _ _ _ ha
      simp only [ha, heq]
      exact ⟨by trivial, by trivial, by trivial, by trivial⟩
    | some p =>
      obtain ⟨hav, htbl, hdisk, hcfg⟩ := PortManager.allocate_port_some _ _ _ _ _ _ _ _ ha
      have hfresh : dget st.pm.allocated_ports p = none := by
        simp only [PortManager.is_port_available, Bool.and_eq_true,
          Bool.not_eq_true'] at hav
        exact (dmem_eq_false_iff _ _).mp hav.2
      simp only [ha] at h ⊢
      by_cases haddv : (popAdd (popPick env).2).1
      · simp only [haddv, Bool.not_true, Bool.false_eq_true, if_false] at h ⊢
        cases hres : (resolve_loop p 3 (popAdd (popPick env).2).2 none).1 with
        | none => simp [hres] at h
        | some t =>
          by_cases ht : t = 0
          · simp [hres, ht] at h
          · simp [hres, ht] at h
      · simp only [Bool.not_eq_true] at haddv
        simp only [haddv, Bool.not_false, if_true]
        have hmem1 : dmem pm1.allocated_ports p = true := by
          rw [htbl]; simp
        unfold PortManager.release_port
        rw [if_pos hmem1]
        simp only [PortManager.save_allocated_ports, htbl]
        refine ⟨by trivial, ?_, by simp [hcfg], by trivial⟩
        exact ddel_dput_fresh _ _ _ hfresh

/-- When `create_tunnel` returns a record, the port in the record was
freshly allocated (available before the call, the one table insert), the
configuration is untouched, and the cache either gained exactly the
resolved id (bound to that port) or, when the id is `None`, is
unchanged. -/
theorem create_tunnel_some_spec (st : DTMState) (env : Env) (target svc : String)
    (cid0 : Option Nat) (pref : Option Nat) (remark0 : Option String) (rec0 : TunnelRec)
    (h : (create_tunnel st env target svc cid0 pref remark0).1 = some rec0) :
    PortManager.is_port_available st.pm rec0.port = true ∧
    (∃ v, (create_tunnel st env target svc cid0 pref remark0).2.1.pm.allocated_ports =
      dput st.pm.allocated_ports rec0.port v) ∧
    (create_tunnel st env target svc cid0 pref remark0).2.1.pm.config = st.pm.config ∧
    (create_tunnel st env target svc cid0 pref remark0).2.1.default_client_id =
      st.default_client_id ∧
    (rec0.tunnel_id = none →
      (create_tunnel st env target svc cid0 pref remark0).2.1.tunnel_mappings =
        st.tunnel_mappings) ∧
    (∀ tid, rec0.tunnel_id = some tid →
      ∃ info, (create_tunnel st env target svc cid0 pref remark0).2.1.tunnel_mappings =
        dput st.tunnel_mappings tid info ∧ info.port = rec0.port) := by
  unfold create_tunnel at h ⊢
  simp only at h ⊢
  cases ha : PortManager.allocate_port st.pm svc (some (cid0.getD st.default_client_id))
      pref (popPick env).1 env.now with
  | mk port0 pm1 =>
    cases port0 with
    | none => simp [ha] at h
    | some p =>
      obtain ⟨hav, htbl, hdisk, hcfg⟩ := PortManager.allocate_port_some _ _ _ _ _ _ _ _ ha
      simp only [ha] at h ⊢
      by_cases haddv : (popAdd (popPick env).2).1
      · simp only [haddv, Bool.not_true, Bool.false_eq_true, if_false] at h ⊢
        cases hres : (resolve_loop p 3 (popAdd (popPick env).2).2 none).1 with
        | none =>
          simp only [hres] at h ⊢
          simp at h
          subst h
          refine ⟨hav, ⟨_, htbl⟩, hcfg, by trivial, fun _ => by trivial, ?_⟩
          intro tid htid
          simp at htid
        | some t =>
          by_cases ht : t = 0
          · simp only [hres, ht, if_pos] at h ⊢
            simp at h
            subst h
            refine ⟨hav, ⟨_, htbl⟩, hcfg, by trivial, fun _ => by trivial, ?_⟩
            intro tid htid
            simp at htid
          · simp only [hres, if_neg ht] at h ⊢
            simp at h
            subst h
            refine ⟨hav, ⟨_, htbl⟩, hcfg, by trivial, by simp, ?_⟩
            intro tid htid
            simp at htid
            subst htid
            exact ⟨_, by trivial, by trivial⟩
      · simp only [Bool.not_eq_true] at haddv
        simp only [haddv, Bool.not_false, if_true] at h
        simp at h

/-- `delete_tunnel` on an id absent from the cache leaves the state
unchanged. -/
theorem delete_tunnel_miss (st : DTMState) (env : Env) (tid : Nat)
    (h : dget st.tunnel_mappings tid = none) :
    (delete_tunnel st env tid).2.1 = st := by
  unfold delete_tunnel
  simp [h]

/-- `delete_tunnel` on a cached id with a failing broker delete leaves
the state unchanged and reports failure. -/
theorem delete_tunnel_fail (st : DTMState) (env : Env) (tid : Nat) (info : TunnelInfo)
    (h : dget st.tunnel_mappings tid = some info) (hd : (popDel env).1 = false) :
    delete_tunnel st env tid = (false, st, (popDel env).2) := by
  unfold delete_tunnel
  simp [h, hd]

/-- `delete_tunnel` on a cached id with a succeeding broker delete drops
the cache entry and releases exactly its port. -/
theorem delete_tunnel_ok (st : DTMState) (env : Env) (tid : Nat) (info : TunnelInfo)
    (h : dget st.tunnel_mappings tid = some info) (hd : (popDel env).1 = true) :
    (delete_tunnel st env tid).1 = true ∧
    (delete_tunnel st env tid).2.1.tunnel_mappings = ddel st.tunnel_mappings tid ∧
    (delete_tunnel st env tid).2.1.pm.allocated_ports =
      ddel st.pm.allocated_ports info.port ∧
    (delete_tunnel st env tid).2.1.pm.config = st.pm.config ∧
    (delete_tunnel st env tid).2.1.default_client_id = st.default_client_id ∧
    (delete_tunnel st env tid).2.2 = (popDel env).2 := by
  unfold delete_tunnel
  simp only [h, hd, Bool.not_true, Bool.false_eq_true, if_false]
  refine ⟨by trivial, by trivial, ?_, ?_, by trivial, by trivial⟩
  · unfold PortManager.release_port
    by_cases hm : dmem st.pm.allocated_ports info.port
    · rw [if_pos hm]
      simp [PortManager.save_allocated_ports]
    · rw [if_neg hm]
      have hg : dget st.pm.allocated_ports info.port = none := by
        cases hg2 : dget st.pm.allocated_ports info.port with
        | none => rfl
        | some w => simp [dmem, hg2] at hm
      rw [ddel_absent _ _ hg]
  · unfold PortManager.release_port
    by_cases hm : dmem st.pm.allocated_ports info.port
    · rw [if_pos hm]
      simp [PortManager.save_allocated_ports]
    · rw [if_neg hm]

end DynamicTunnelManager

/-! ## Claim C10: the orchestrator cache invariant -/

theorem cache_inv_iff (d : DTMState) :
    cache_inv d = true ↔ (dkeys d.tunnel_mappings).Nodup ∧
      (∀ kv ∈ d.tunnel_mappings, PortManager.is_port_allocated d.pm kv.2.port = true) ∧
      (d.tunnel_mappings.map (fun kv => kv.2.port)).Nodup := by
  simp only [cache_inv, Bool.and_eq_true, decide_eq_true_eq, List.all_eq_true]
  tauto

/-- The invariant only looks at the cache and the allocation table. -/
theorem cache_inv_congr (d1 d2 : DTMState)
    (hm : d2.tunnel_mappings = d1.tunnel_mappings)
    (hp : d2.pm.allocated_ports = d1.pm.allocated_ports)
    (h : cache_inv d1 = true) : cache_inv d2 = true := by
  rw [cache_inv_iff] at h ⊢
  rw [hm]
  refine ⟨h.1, ?_, h.2.2⟩
  intro kv hkv
  have := h.2.1 kv hkv
  simpa [PortManager.is_port_allocated, dmem, hp] using this

theorem cache_inv_create (st : DTMState) (env : Env) (target svc : String)
    (cid0 : Option Nat) (pref : Option Nat) (remark0 : Option String)
    (h : cache_inv st = true) :
    cache_inv (DynamicTunnelManager.create_tunnel st env target svc cid0 pref
      remark0).2.1 = true := by
  cases hres : (DynamicTunnelManager.create_tunnel st env target svc cid0 pref
      remark0).1 with
  | none =>
    obtain ⟨hm, ht, hc, hd⟩ := DynamicTunnelManager.create_tunnel_none_spec _ _ _ _ _ _ _
      hres
    exact cache_inv_congr st _ hm ht h
  | some rec0 =>
    obtain ⟨hav, ⟨v, ht⟩, hc, hd, hnone, hsome⟩ :=
      DynamicTunnelManager.create_tunnel_some_spec _ _ _ _ _ _ _ _ hres
    have hfresh : dmem st.pm.allocated_ports rec0.port = false := by
      simp only [PortManager.is_port_available, Bool.and_eq_true, Bool.not_eq_true'] at hav
      exact hav.2
    rw [cache_inv_iff] at h
    cases htid : rec0.tunnel_id with
    | none =>
      rw [cache_inv_iff]
      simp only [PortManager.is_port_allocated]
      rw [hnone htid, ht]
      refine ⟨h.1, ?_, h.2.2⟩
      intro kv hkv
      have := h.2.1 kv hkv
      simp only [PortManager.is_port_allocated] at this
      exact dmem_dput_preserve _ _ _ _ this
    | some tid =>
      obtain ⟨info, hmp, hport⟩ := hsome tid htid
      rw [cache_inv_iff]
      simp only [PortManager.is_port_allocated]
      rw [hmp, ht]
      refine ⟨dkeys_dput_nodup _ _ _ h.1, ?_, ?_⟩
      · intro kv hkv
        rcases mem_dput _ _ _ _ hkv with h1 | h1
        · have := h.2.1 kv h1
          simp only [PortManager.is_port_allocated] at this
          exact dmem_dput_preserve _ _ _ _ this
        · rw [h1]
          simp only [hport]
          simp [dmem]
      · apply ports_nodup_dput _ _ _ h.2.2
        intro kv hkv hcontra
        have halloc := h.2.1 kv hkv
        rw [hport] at hcontra
        rw [hcontra] at halloc
        simp only [PortManager.is_port_allocated] at halloc
        rw [halloc] at hfresh
        exact Bool.noConfusion hfresh

theorem cache_inv_delete (st : DTMState) (env : Env) (tid : Nat)
    (h : cache_inv st = true) :
    cache_inv (DynamicTunnelManager.delete_tunnel st env tid).2.1 = true := by
  cases hg : dget st.tunnel_mappings tid with
  | none =>
    rw [DynamicTunnelManager.delete_tunnel_miss st env tid hg]
    exact h
  | some info =>
    cases hd : (popDel env).1 with
    | false =>
      rw [DynamicTunnelManager.delete_tunnel_fail st env tid info hg hd]
      exact h
    | true =>
      obtain ⟨_, hm, ht, hc, hdf, he⟩ :=
        DynamicTunnelManager.delete_tunnel_ok st env tid info hg hd
      rw [cache_inv_iff] at h
      rw [cache_inv_iff]
      simp only [PortManager.is_port_allocated]
      rw [hm, ht]
      refine ⟨dkeys_ddel_nodup _ _ h.1, ?_, ?_⟩
      · intro kv hkv
        have hmem := mem_ddel _ _ _ hkv
        have hne := mem_ddel_ne _ _ _ hkv
        have halloc := h.2.1 kv hmem
        have hport : kv.2.port ≠ info.port := by
          intro hcontra
          have hinj := List.inj_on_of_nodup_map h.2.2 hmem
            (mem_of_dget _ _ _ hg) hcontra
          exact hne (by rw [hinj])
        rw [dmem_ddel_ne_preserve _ _ _ hport]
        simpa [PortManager.is_port_allocated] using halloc
      · exact h.2.2.sublist (List.Sublist.map _ (ddel_sublist _ _))

theorem ports_map_dmodify (l : List (Nat × TunnelInfo)) (k : Nat)
    (f : TunnelInfo → TunnelInfo) (hf : ∀ i, (f i).port = i.port) :
    (dmodify l k f).map (fun kv => kv.2.port) = l.map (fun kv => kv.2.port) := by
  induction l with
  | nil => rfl
  | cons e t ih =>
    obtain ⟨k1, v1⟩ := e
    by_cases h : k1 = k <;> simp [dmodify, h, ih, hf]

/-- Rewriting a cache entry in place without changing its port preserves
the invariant. -/
theorem cache_inv_dmodify (d : DTMState) (tid : Nat) (f : TunnelInfo → TunnelInfo)
    (hf : ∀ i, (f i).port = i.port) (h : cache_inv d = true) :
    cache_inv { d with tunnel_mappings := dmodify d.tunnel_mappings tid f } = true := by
  rw [cache_inv_iff] at h ⊢
  refine ⟨?_, ?_, ?_⟩
  · simp only [dkeys_dmodify]
    exact h.1
  · intro kv hkv
    simp only at hkv
    rcases mem_dmodify _ _ _ _ hkv with h1 | ⟨v0, hv0, he⟩
    · exact h.2.1 kv h1
    · rw [he]
      simp only [PortManager.is_port_allocated, hf v0]
      exact h.2.1 (tid, v0) hv0
  · simp only [ports_map_dmodify _ _ _ hf]
    exact h.2.2

theorem cache_inv_update_rest (st : DTMState) (env : Env) (tid : Nat) (info : TunnelInfo)
    (t0 : Option String) (p0 : Option Nat) (r0 : Option String)
    (ft fr : String) (fp : Nat)
    (h : cache_inv st = true) :
    cache_inv (DynamicTunnelManager.update_tunnel_rest st env tid info t0 p0 r0 ft fr fp
      false).2.1 = true := by
  unfold DynamicTunnelManager.update_tunnel_rest
  by_cases hok : (popUpd env).1
  · simp only [hok, Bool.not_true, Bool.false_eq_true, if_false]
    cases t0 with
    | none =>
      cases r0 with
      | none => exact h
      | some r1 => exact cache_inv_dmodify st tid _ (fun i => rfl) h
    | some t1 =>
      cases r0 with
      | none => exact cache_inv_dmodify st tid _ (fun i => rfl) h
      | some r1 =>
        exact cache_inv_dmodify _ tid _ (fun i => rfl)
          (cache_inv_dmodify st tid _ (fun i => rfl) h)
  · simp only [Bool.not_eq_true] at hok
    simp only [hok, Bool.not_false, if_true]
    exact h

theorem cache_inv_update (st : DTMState) (env : Env) (tid : Nat)
    (t0 : Option String) (p0 : Option Nat) (r0 : Option String)
    (h : cache_inv st = true) :
    cache_inv (DynamicTunnelManager.update_tunnel st env tid t0 p0 r0).2.1 = true := by
  unfold DynamicTunnelManager.update_tunnel
  cases hg : dget st.tunnel_mappings tid with
  | none =>
    exact h
  | some info =>
    simp only
    by_cases hguard : ((t0.getD info.target == info.target) &&
        (p0.getD info.port == info.port) && (r0.getD info.remark == info.remark)) = true
    · simp only [hguard, if_true]
      exact h
    · simp only [hguard, Bool.false_eq_true, if_false]
      cases p0 with
      | none =>
        exact cache_inv_update_rest st env tid info t0 none r0 _ _ _ h
      | some p =>
        by_cases hpne : (p != info.port) = true
        · simp only [hpne, if_true]
          by_cases hpav : PortManager.is_port_available st.pm p
          · simp only [hpav, Bool.not_true, Bool.false_eq_true, if_false,
              PortManager.mark_port_allocated, py_truthy, Bool.not_false, if_true]
            have hfresh : dmem st.pm.allocated_ports p = false := by
              simp only [PortManager.is_port_available, Bool.and_eq_true,
                Bool.not_eq_true'] at hpav
              exact hpav.2
            rw [cache_inv_iff] at h ⊢
            refine ⟨h.1, ?_, h.2.2⟩
            intro kv hkv
            have := h.2.1 kv hkv
            simp only [PortManager.is_port_allocated, dmem] at this ⊢
            exact dmem_dput_preserve _ _ _ _ this
          · simp only [Bool.not_eq_true] at hpav
            simp only [hpav, Bool.not_false, if_true]
            exact h
        · simp only [hpne, Bool.false_eq_true, if_false]
          exact cache_inv_update_rest st env tid info t0 (some p) r0 _ _ _ h

theorem cache_inv_clear_loop (l : List TunnelRec) :
    ∀ (st : DTMState) (env : Env) (count : Nat), cache_inv st = true →
      cache_inv (DynamicTunnelManager.clear_loop l st env count).2.1 = true := by
  induction l with
  | nil => intro st env count h; exact h
  | cons tr rest ih =>
    intro st env count h
    cases htid : tr.tunnel_id with
    | none =>
      simp only [DynamicTunnelManager.clear_loop, htid]
      exact ih st env count h
    | some tid =>
      simp only [DynamicTunnelManager.clear_loop, htid]
      by_cases ht : tid ≠ 0
      · rw [if_pos ht]
        exact ih _ _ _ (cache_inv_delete st env tid h)
      · rw [if_neg ht]
        exact ih st env count h

theorem cache_inv_clear (st : DTMState) (env : Env) (svc : String) (cid0 : Option Nat)
    (h : cache_inv st = true) :
    cache_inv (DynamicTunnelManager.clear_service_tunnels st env svc cid0).2.1 = true := by
  unfold DynamicTunnelManager.clear_service_tunnels
  exact cache_inv_clear_loop _ st env 0 h

theorem list_tunnels_mem (st : DTMState) (c0 : Option Nat) (s0 : Option String)
    (rec1 : TunnelRec) (h : rec1 ∈ DynamicTunnelManager.list_tunnels st c0 s0) :
    ∃ kv ∈ st.tunnel_mappings, rec1.port = kv.2.port := by
  unfold DynamicTunnelManager.list_tunnels at h
  rcases List.mem_filterMap.mp h with ⟨kv, hkv, heq⟩
  simp only at heq
  split at heq
  · exact Option.noConfusion heq
  · refine ⟨kv, hkv, ?_⟩
    rw [← Option.some_inj.mp heq]

/-- C10: every tunnel-orchestrator operation (`create_tunnel`,
`delete_tunnel`, `update_tunnel`, `clear_service_tunnels`) preserves the
cache invariant - cache keys are distinct resolved ids and the port of
every cached record is marked allocated in the port manager; and a
`create_tunnel` whose id resolution fails returns a record with a null
id that is never inserted into the cache, its port stays allocated, and
no tunnel listed by `list_tunnels` (hence none deletable by
`clear_service_tunnels`) carries that port. -/
theorem claim_c10 :
    (∀ (st : DTMState) (env : Env) (target svc : String) (cid0 : Option Nat)
      (pref : Option Nat) (remark0 : Option String), cache_inv st = true →
      cache_inv (DynamicTunnelManager.create_tunnel st env target svc cid0 pref
        remark0).2.1 = true) ∧
    (∀ (st : DTMState) (env : Env) (tid : Nat), cache_inv st = true →
      cache_inv (DynamicTunnelManager.delete_tunnel st env tid).2.1 = true) ∧
    (∀ (st : DTMState) (env : Env) (tid : Nat) (t0 : Option String) (p0 : Option Nat)
      (r0 : Option String), cache_inv st = true →
      cache_inv (DynamicTunnelManager.update_tunnel st env tid t0 p0 r0).2.1 = true) ∧
    (∀ (st : DTMState) (env : Env) (svc : String) (cid0 : Option Nat),
      cache_inv st = true →
      cache_inv (DynamicTunnelManager.clear_service_tunnels st env svc
        cid0).2.1 = true) ∧
    (∀ (st : DTMState) (env : Env) (target svc : String) (cid0 : Option Nat)
      (pref : Option Nat) (remark0 : Option String) (rec0 : TunnelRec),
      cache_inv st = true →
      (DynamicTunnelManager.create_tunnel st env target svc cid0 pref remark0).1 =
        some rec0 →
      rec0.tunnel_id = none →
      (DynamicTunnelManager.create_tunnel st env target svc cid0 pref
        remark0).2.1.tunnel_mappings = st.tunnel_mappings ∧
      PortManager.is_port_allocated (DynamicTunnelManager.create_tunnel st env target svc
        cid0 pref remark0).2.1.pm rec0.port = true ∧
      (∀ (c0 : Option Nat) (s0 : Option String) (rec1 : TunnelRec),
        rec1 ∈ DynamicTunnelManager.list_tunnels (DynamicTunnelManager.create_tunnel st
          env target svc cid0 pref remark0).2.1 c0 s0 →
        rec1.port ≠ rec0.port)) := by
  refine ⟨cache_inv_create, cache_inv_delete, cache_inv_update, cache_inv_clear, ?_⟩
  intro st env target svc cid0 pref remark0 rec0 hinv hres htid
  obtain ⟨hav, ⟨v, ht⟩, hc, hd, hnone, hsome⟩ :=
    DynamicTunnelManager.create_tunnel_some_spec _ _ _ _ _ _ _ _ hres
  have hfresh : dmem st.pm.allocated_ports rec0.port = false := by
    simp only [PortManager.is_port_available, Bool.and_eq_true, Bool.not_eq_true'] at hav
    exact hav.2
  have hmaps := hnone htid
  refine ⟨hmaps, ?_, ?_⟩
  · simp only [PortManager.is_port_allocated, ht]
    simp [dmem]
  · intro c0 s0 rec1 hmem
    obtain ⟨kv, hkv, hport⟩ := list_tunnels_mem _ _ _ _ hmem
    rw [hmaps] at hkv
    have halloc := (cache_inv_iff st).mp hinv |>.2.1 kv hkv
    intro hcontra
    have hkp : kv.2.port = rec0.port := by rw [← hport, hcontra]
    rw [hkp] at halloc
    simp only [PortManager.is_port_allocated] at halloc
    rw [halloc] at hfresh
    exact Bool.noConfusion hfresh

/-- Witness for C10 at a concrete state: a create whose three broker
list polls fail leaves the cache empty, the port allocated, and nothing
listed at that port. -/
theorem claim_c10_witness :
    cache_inv (DynamicTunnelManager.create_tunnel
      ⟨2, [], ⟨⟨10000, 10001, [], "sequential", []⟩, [], []⟩⟩
      ⟨[true], [], [], [], [], [], 0⟩ "t" "ssh" none none (some "r")).2.1 = true ∧
    (DynamicTunnelManager.create_tunnel
      ⟨2, [], ⟨⟨10000, 10001, [], "sequential", []⟩, [], []⟩⟩
      ⟨[true], [], [], [], [], [], 0⟩ "t" "ssh" none none
      (some "r")).2.1.tunnel_mappings = [] ∧
    PortManager.is_port_allocated (DynamicTunnelManager.create_tunnel
      ⟨2, [], ⟨⟨10000, 10001, [], "sequential", []⟩, [], []⟩⟩
      ⟨[true], [], [], [], [], [], 0⟩ "t" "ssh" none none (some "r")).2.1.pm
      10000 = true := by
  have h1 := claim_c10.1 ⟨2, [], ⟨⟨10000, 10001, [], "sequential", []⟩, [], []⟩⟩
    ⟨[true], [], [], [], [], [], 0⟩ "t" "ssh" none none (some "r") (by decide)
  have h5 := claim_c10.2.2.2.2 ⟨2, [], ⟨⟨10000, 10001, [], "sequential", []⟩, [], []⟩⟩
    ⟨[true], [], [], [], [], [], 0⟩ "t" "ssh" none none (some "r")
    ⟨none, 10000, "ssh", 2, "t", "r"⟩ (by decide) (by decide) (by decide)
  exact ⟨h1, h5.1, h5.2.1⟩

/-! ## Claim C1: create_container rollback -/

namespace DynamicTunnelManager

/-- `create_tunnel` never unallocates an already-allocated port. -/
theorem create_tunnel_mono_alloc (st : DTMState) (env : Env) (target svc : String)
    (cid0 : Option Nat) (pref : Option Nat) (remark0 : Option String) (q : Nat)
    (h : dmem st.pm.allocated_ports q = true) :
    dmem (create_tunnel st env target svc cid0 pref remark0).2.1.pm.allocated_ports q =
      true := by
  cases hres : (create_tunnel st env target svc cid0 pref remark0).1 with
  | none =>
    obtain ⟨hm, ht, hc, hd⟩ := create_tunnel_none_spec _ _ _ _ _ _ _ hres
    rw [ht]
    exact h
  | some rec0 =>
    obtain ⟨hav, ⟨v, ht⟩, hc, hd, hnone, hsome⟩ := create_tunnel_some_spec _ _ _ _ _ _ _ _
      hres
    rw [ht]
    exact dmem_dput_preserve _ _ _ _ h

/-- `create_tunnel` changes no cache binding other than the one at its
resolved id. -/
theorem create_tunnel_mappings_other (st : DTMState) (env : Env) (target svc : String)
    (cid0 : Option Nat) (pref : Option Nat) (remark0 : Option String) (x : Nat)
    (hx : ∀ rec0, (create_tunnel st env target svc cid0 pref remark0).1 = some rec0 →
      rec0.tunnel_id ≠ some x) :
    dget (create_tunnel st env target svc cid0 pref remark0).2.1.tunnel_mappings x =
      dget st.tunnel_mappings x := by
  cases hres : (create_tunnel st env target svc cid0 pref remark0).1 with
  | none =>
    obtain ⟨hm, ht, hc, hd⟩ := create_tunnel_none_spec _ _ _ _ _ _ _ hres
    rw [hm]
  | some rec0 =>
    obtain ⟨hav, ⟨v, ht⟩, hc, hd, hnone, hsome⟩ := create_tunnel_some_spec _ _ _ _ _ _ _ _
      hres
    cases htid : rec0.tunnel_id with
    | none => rw [hnone htid]
    | some tid =>
      obtain ⟨info, hmp, hport⟩ := hsome tid htid
      rw [hmp]
      have hne : tid ≠ x := by
        intro he
        exact hx rec0 hres (by rw [htid, he])
      exact dget_dput_ne _ _ _ hne

end DynamicTunnelManager

namespace DockerContainerManager

/-- The created-record accumulator of the tunnel batch only grows. -/
theorem tunnel_batch_acc_grows (svcs : List (String × Nat)) :
    ∀ (d : DTMState) (env : Env) (name ip : String) (acc : List (String × TunnelRec))
      (ports : List (String × Nat)) (f : Bool),
      ∃ pre, (tunnel_batch d env name ip svcs acc ports f).1 = acc ++ pre := by
  induction svcs with
  | nil =>
    intro d env name ip acc ports f
    exact ⟨[], by simp [tunnel_batch]⟩
  | cons sv rest ih =>
    intro d env name ip acc ports f
    obtain ⟨svc, iport⟩ := sv
    simp only [tunnel_batch]
    cases hres : (DynamicTunnelManager.create_tunnel d env (ip ++ ":" ++ toString iport)
        svc none none (some ("Container:" ++ name ++ "_Service:" ++ svc))).1 with
    | some tr =>
      simp only [hres]
      obtain ⟨pre, hpre⟩ := ih _ _ name ip (acc ++ [(svc, tr)])
        (ports ++ [(svc ++ "_port", tr.port)]) f
      exact ⟨(svc, tr) :: pre, by rw [hpre]; simp⟩
    | none =>
      simp only [hres]
      by_cases hsvc : svc = "ssh"
      · simp only [if_pos hsvc]
        exact ⟨[], by simp⟩
      · simp only [if_neg hsvc]
        exact ih _ _ name ip acc ports true

/-- Invariant of the tunnel-creation batch: provided the resolved ids of
the final batch are pairwise distinct, every created record holds a
distinct allocated port, and every resolved id is bound in the cache to
the port of its record. -/
theorem tunnel_batch_spec (svcs : List (String × Nat)) :
    ∀ (d : DTMState) (env : Env) (name ip : String) (acc : List (String × TunnelRec))
      (ports : List (String × Nat)) (f : Bool),
      (((tunnel_batch d env name ip svcs acc ports f).1.filterMap
        (fun kv => kv.2.tunnel_id)).Nodup) →
      (∀ kv ∈ acc, dmem d.pm.allocated_ports kv.2.port = true) →
      ((acc.map (fun kv => kv.2.port)).Nodup) →
      (∀ kv ∈ acc, ∀ tid, kv.2.tunnel_id = some tid →
        ∃ info, dget d.tunnel_mappings tid = some info ∧ info.port = kv.2.port) →
      (∃ pre, (tunnel_batch d env name ip svcs acc ports f).1 = acc ++ pre) ∧
      (∀ kv ∈ (tunnel_batch d env name ip svcs acc ports f).1,
        dmem (tunnel_batch d env name ip svcs acc ports f).2.2.2.1.pm.allocated_ports
          kv.2.port = true) ∧
      (((tunnel_batch d env name ip svcs acc ports f).1.map
        (fun kv => kv.2.port)).Nodup) ∧
      (∀ kv ∈ (tunnel_batch d env name ip svcs acc ports f).1, ∀ tid,
        kv.2.tunnel_id = some tid →
        ∃ info, dget (tunnel_batch d env name ip svcs acc ports
          f).2.2.2.1.tunnel_mappings tid = some info ∧ info.port = kv.2.port) := by
  induction svcs with
  | nil =>
    intro d env name ip acc ports f hids halloc hports hmaps
    exact ⟨⟨[], by simp [tunnel_batch]⟩, halloc, hports, hmaps⟩
  | cons sv rest ih =>
    intro d env name ip acc ports f hids halloc hports hmaps
    obtain ⟨svc, iport⟩ := sv
    simp only [tunnel_batch] at hids ⊢
    cases hres : (DynamicTunnelManager.create_tunnel d env (ip ++ ":" ++ toString iport)
        svc none none (some ("Container:" ++ name ++ "_Service:" ++ svc))).1 with
    | some tr =>
      simp only [hres] at hids ⊢
      obtain ⟨hav, ⟨v, ht⟩, hc, hd2, hnone, hsome⟩ :=
        DynamicTunnelManager.create_tunnel_some_spec _ _ _ _ _ _ _ _ hres
      have hfresh : dmem d.pm.allocated_ports tr.port = false := by
        simp only [PortManager.is_port_available, Bool.and_eq_true,
          Bool.not_eq_true'] at hav
        exact hav.2
      have hacc2alloc : ∀ kv ∈ acc ++ [(svc, tr)],
          dmem (DynamicTunnelManager.create_tunnel d env (ip ++ ":" ++ toString iport)
            svc none none (some ("Container:" ++ name ++ "_Service:" ++
            svc))).2.1.pm.allocated_ports kv.2.port = true := by
        intro kv hkv
        rcases List.mem_append.mp hkv with h1 | h1
        · exact DynamicTunnelManager.create_tunnel_mono_alloc _ _ _ _ _ _ _ _
            (halloc kv h1)
        · simp at h1
          rw [h1, ht]
          simp [dmem]
      have hacc2ports : ((acc ++ [(svc, tr)]).map (fun kv => kv.2.port)).Nodup := by
        rw [List.map_append]
        rw [List.nodup_append]
        refine ⟨hports, by simp, ?_⟩
        intro a ha hb
        simp at hb
        rcases List.mem_map.mp ha with ⟨kv, hkv, hp⟩
        have := halloc kv hkv
        rw [hp, hb] at this
        rw [this] at hfresh
        exact Bool.noConfusion hfresh
      have hacc2maps : ∀ kv ∈ acc ++ [(svc, tr)], ∀ tid, kv.2.tunnel_id = some tid →
          ∃ info, dget (DynamicTunnelManager.create_tunnel d env
            (ip ++ ":" ++ toString iport) svc none none
            (some ("Container:" ++ name ++ "_Service:" ++
            svc))).2.1.tunnel_mappings tid = some info ∧ info.port = kv.2.port := by
        intro kv hkv tid htid
        rcases List.mem_append.mp hkv with h1 | h1
        · obtain ⟨info, hi1, hi2⟩ := hmaps kv h1 tid htid
          refine ⟨info, ?_, hi2⟩
          rw [DynamicTunnelManager.create_tunnel_mappings_other]
          · exact hi1
          · intro rec0 hres2 hcontra
            rw [hres] at hres2
            have hrec0 : rec0 = tr := Option.some_inj.mp hres2.symm
            rw [hrec0] at hcontra
            obtain ⟨pre, hpre1⟩ := tunnel_batch_acc_grows rest
              (DynamicTunnelManager.create_tunnel d env (ip ++ ":" ++ toString iport)
                svc none none (some ("Container:" ++ name ++ "_Service:" ++ svc))).2.1
              (DynamicTunnelManager.create_tunnel d env (ip ++ ":" ++ toString iport)
                svc none none (some ("Container:" ++ name ++ "_Service:" ++ svc))).2.2
              name ip (acc ++ [(svc, tr)])
              (ports ++ [(svc ++ "_port", tr.port)]) f
            rw [hpre1, List.filterMap_append, List.nodup_append] at hids
            have hacc_nodup := hids.1
            rw [List.filterMap_append, List.nodup_append] at hacc_nodup
            have htidacc : tid ∈ acc.filterMap (fun kv => kv.2.tunnel_id) :=
              List.mem_filterMap.mpr ⟨kv, h1, htid⟩
            have htr : tid ∈ List.filterMap (fun kv => kv.2.tunnel_id) [(svc, tr)] := by
              simp [List.filterMap, hcontra]
            exact hacc_nodup.2.2 htidacc htr
        · simp at h1
          rw [h1] at htid ⊢
          obtain ⟨info, hi1, hi2⟩ := hsome tid htid
          exact ⟨info, by rw [hi1]; simp, hi2⟩
      have hmain := ih _ _ name ip (acc ++ [(svc, tr)])
        (ports ++ [(svc ++ "_port", tr.port)]) f hids hacc2alloc hacc2ports hacc2maps
      obtain ⟨⟨pre, hpre1⟩, hm2, hm3, hm4⟩ := hmain
      refine ⟨⟨(svc, tr) :: pre, by rw [hpre1]; simp⟩, hm2, hm3, hm4⟩
    | none =>
      simp only [hres] at hids ⊢
      obtain ⟨hm, ht, hc, hd2⟩ := DynamicTunnelManager.create_tunnel_none_spec _ _ _ _ _
        _ _ hres
      have halloc2 : ∀ kv ∈ acc, dmem (DynamicTunnelManager.create_tunnel d env
          (ip ++ ":" ++ toString iport) svc none none
          (some ("Container:" ++ name ++ "_Service:" ++
          svc))).2.1.pm.allocated_ports kv.2.port = true := by
        intro kv hkv
        rw [ht]
        exact halloc kv hkv
      have hmaps2 : ∀ kv ∈ acc, ∀ tid, kv.2.tunnel_id = some tid →
          ∃ info, dget (DynamicTunnelManager.create_tunnel d env
            (ip ++ ":" ++ toString iport) svc none none
            (some ("Container:" ++ name ++ "_Service:" ++
            svc))).2.1.tunnel_mappings tid = some info ∧ info.port = kv.2.port := by
        intro kv hkv tid htid
        rw [hm]
        exact hmaps kv hkv tid htid
      by_cases hsvc : svc = "ssh"
      · simp only [if_pos hsvc] at hids ⊢
        exact ⟨⟨[], by simp⟩, halloc2, hports, hmaps2⟩
      · simp only [if_neg hsvc] at hids ⊢
        exact ih _ _ name ip acc ports true hids halloc2 hports hmaps2

/-- `release_port` always leaves the table equal to the deletion of its
port (a no-op deletion when the port was not held). -/
theorem release_port_table (pm : PMState) (q : Nat) :
    (PortManager.release_port pm q).2.allocated_ports = ddel pm.allocated_ports q := by
  unfold PortManager.release_port
  by_cases h : dmem pm.allocated_ports q
  · rw [if_pos h]
    simp [PortManager.save_allocated_ports]
  · rw [if_neg h]
    exact (ddel_absent _ _ ((dmem_eq_false_iff _ _).mp (Bool.eq_false_iff.mpr h))).symm

/-- `delete_tunnel` never resurrects a cache binding. -/
theorem delete_tunnel_mappings_mono (st : DTMState) (env : Env) (tid x : Nat)
    (h : dget st.tunnel_mappings x = none) :
    dget (DynamicTunnelManager.delete_tunnel st env tid).2.1.tunnel_mappings x =
      none := by
  unfold DynamicTunnelManager.delete_tunnel
  cases hg : dget st.tunnel_mappings tid with
  | none => exact h
  | some info =>
    by_cases hok : (popDel env).1 = true
    · simp only [hok, Bool.not_true, Bool.false_eq_true, if_false]
      by_cases hx : x = tid
      · subst hx
        exact dget_ddel_self _ _
      · rw [dget_ddel_ne _ hx]
        exact h
    · rw [Bool.eq_false_iff.mpr hok]
      simp only [Bool.not_false, if_true]
      exact h

/-- `delete_tunnel` never allocates a port. -/
theorem delete_tunnel_ports_mono (st : DTMState) (env : Env) (tid : Nat) (p : Nat)
    (h : dmem st.pm.allocated_ports p = false) :
    dmem (DynamicTunnelManager.delete_tunnel st env tid).2.1.pm.allocated_ports p =
      false := by
  unfold DynamicTunnelManager.delete_tunnel
  cases hg : dget st.tunnel_mappings tid with
  | none => exact h
  | some info =>
    by_cases hok : (popDel env).1 = true
    · simp only [hok, Bool.not_true, Bool.false_eq_true, if_false]
      rw [release_port_table]
      by_cases hp : p = info.port
      · subst hp
        exact dmem_ddel_self _ _
      · rw [dmem_ddel_ne_preserve _ _ _ hp]
        exact h
    · rw [Bool.eq_false_iff.mpr hok]
      simp only [Bool.not_false, if_true]
      exact h

/-- The rollback loop never resurrects a cache binding. -/
theorem rollback_mappings_mono (lst : List (String × TunnelRec)) :
    ∀ (d : DTMState) (e : Env) (x : Nat), dget d.tunnel_mappings x = none →
      dget (rollback_tunnels lst d e).1.tunnel_mappings x = none := by
  induction lst with
  | nil =>
    intro d e x h
    exact h
  | cons kv rest ih =>
    intro d e x h
    cases htid : kv.2.tunnel_id with
    | some tid =>
      simp only [rollback_tunnels, htid]
      exact ih _ _ x (delete_tunnel_mappings_mono d e tid x h)
    | none =>
      simp only [rollback_tunnels, htid]
      exact ih _ _ x h

/-- The rollback loop never allocates a port. -/
theorem rollback_ports_mono (lst : List (String × TunnelRec)) :
    ∀ (d : DTMState) (e : Env) (p : Nat), dmem d.pm.allocated_ports p = false →
      dmem (rollback_tunnels lst d e).1.pm.allocated_ports p = false := by
  induction lst with
  | nil =>
    intro d e p h
    exact h
  | cons kv rest ih =>
    intro d e p h
    cases htid : kv.2.tunnel_id with
    | some tid =>
      simp only [rollback_tunnels, htid]
      exact ih _ _ p (delete_tunnel_ports_mono d e tid p h)
    | none =>
      simp only [rollback_tunnels, htid]
      exact ih _ _ p h

/-- Behaviour of the rollback loop of `create_container` when the cache
binds every resolved id to the port of its record, the resolved ids are
pairwise distinct, and the broker delete queue holds enough successful
responses: every record with a resolved id is erased from the cache and
its port released, while every other allocated port survives — in
particular the port of a record whose id resolution failed. -/
theorem rollback_spec (lst : List (String × TunnelRec)) :
    ∀ (d : DTMState) (e : Env),
      (∀ kv ∈ lst, ∀ tid, kv.2.tunnel_id = some tid →
        ∃ info, dget d.tunnel_mappings tid = some info ∧ info.port = kv.2.port) →
      ((lst.filterMap (fun kv => kv.2.tunnel_id)).Nodup) →
      ((lst.filterMap (fun kv => kv.2.tunnel_id)).length ≤ e.delQ.length) →
      (∀ b ∈ e.delQ, b = true) →
      (∀ kv ∈ lst, ∀ tid, kv.2.tunnel_id = some tid →
        dget (rollback_tunnels lst d e).1.tunnel_mappings tid = none ∧
        dmem (rollback_tunnels lst d e).1.pm.allocated_ports kv.2.port = false) ∧
      (∀ p, dmem d.pm.allocated_ports p = true →
        (∀ kv ∈ lst, ∀ tid, kv.2.tunnel_id = some tid → kv.2.port ≠ p) →
        dmem (rollback_tunnels lst d e).1.pm.allocated_ports p = true) := by
  induction lst with
  | nil =>
    intro d e hmaps hids hqlen hqtrue
    refine ⟨?_, ?_⟩
    · intro kv hkv
      simp at hkv
    · intro p hp _
      exact hp
  | cons kv0 rest ih =>
    intro d e hmaps hids hqlen hqtrue
    cases htid : kv0.2.tunnel_id with
    | none =>
      simp only [rollback_tunnels, htid]
      have hfm : (kv0 :: rest).filterMap (fun kv => kv.2.tunnel_id) =
          rest.filterMap (fun kv => kv.2.tunnel_id) := by
        simp [List.filterMap_cons, htid]
      rw [hfm] at hids hqlen
      have hmaps1 : ∀ kv ∈ rest, ∀ tid, kv.2.tunnel_id = some tid →
          ∃ info, dget d.tunnel_mappings tid = some info ∧ info.port = kv.2.port :=
        fun kv hkv tid h => hmaps kv (List.mem_cons_of_mem _ hkv) tid h
      obtain ⟨ha, hb⟩ := ih d e hmaps1 hids hqlen hqtrue
      refine ⟨?_, ?_⟩
      · intro kv hkv tid h
        rcases List.mem_cons.mp hkv with h1 | h1
        · rw [h1, htid] at h
          exact Option.noConfusion h
        · exact ha kv h1 tid h
      · intro p hp hne
        exact hb p hp (fun kv hkv tid h => hne kv (List.mem_cons_of_mem _ hkv) tid h)
    | some tid0 =>
      simp only [rollback_tunnels, htid]
      have hfm : (kv0 :: rest).filterMap (fun kv => kv.2.tunnel_id) =
          tid0 :: rest.filterMap (fun kv => kv.2.tunnel_id) := by
        simp [List.filterMap_cons, htid]
      rw [hfm] at hids hqlen
      obtain ⟨info, hinfo, hport⟩ := hmaps kv0 (List.mem_cons_self _ _) tid0 htid
      have hq1 : 0 < e.delQ.length := by
        simp only [List.length_cons] at hqlen
        omega
      have hd : (popDel e).1 = true := by
        cases hdq : e.delQ with
        | nil => rw [hdq] at hq1; simp at hq1
        | cons b q =>
          have : b = true := hqtrue b (by rw [hdq]; exact List.mem_cons_self _ _)
          simp [popDel, hdq, this]
      obtain ⟨hok1, hokm, hokp, hokc, hokcid, hokenv⟩ :=
        DynamicTunnelManager.delete_tunnel_ok d e tid0 info hinfo hd
      have htidnot : tid0 ∉ rest.filterMap (fun kv => kv.2.tunnel_id) :=
        (List.nodup_cons.mp hids).1
      have hmaps1 : ∀ kv ∈ rest, ∀ tid, kv.2.tunnel_id = some tid →
          ∃ info2, dget (DynamicTunnelManager.delete_tunnel d e
            tid0).2.1.tunnel_mappings tid = some info2 ∧ info2.port = kv.2.port := by
        intro kv hkv tid h
        obtain ⟨info2, hi1, hi2⟩ := hmaps kv (List.mem_cons_of_mem _ hkv) tid h
        refine ⟨info2, ?_, hi2⟩
        rw [hokm]
        have hne : tid ≠ tid0 := by
          intro he
          exact htidnot (he ▸ List.mem_filterMap.mpr ⟨kv, hkv, h⟩)
        rw [dget_ddel_ne _ hne]
        exact hi1
      have hids1 : (rest.filterMap (fun kv => kv.2.tunnel_id)).Nodup :=
        (List.nodup_cons.mp hids).2
      have henv1 : (DynamicTunnelManager.delete_tunnel d e tid0).2.2.delQ =
          e.delQ.tail := by
        rw [hokenv]
        rfl
      have hqlen1 : (rest.filterMap (fun kv => kv.2.tunnel_id)).length ≤
          (DynamicTunnelManager.delete_tunnel d e tid0).2.2.delQ.length := by
        rw [henv1, List.length_tail]
        simp only [List.length_cons] at hqlen
        omega
      have hqtrue1 : ∀ b ∈ (DynamicTunnelManager.delete_tunnel d e tid0).2.2.delQ,
          b = true := by
        intro b hb
        rw [henv1] at hb
        exact hqtrue b (List.mem_of_mem_tail hb)
      obtain ⟨ha, hb⟩ := ih _ _ hmaps1 hids1 hqlen1 hqtrue1
      refine ⟨?_, ?_⟩
      · intro kv hkv tid h
        rcases List.mem_cons.mp hkv with h1 | h1
        · -- the head record itself: erased and its port released, then
          -- kept out by monotonicity of the remaining rollback
          rw [h1, htid] at h
          have htideq : tid = tid0 := Option.some_inj.mp h.symm
          subst htideq
          rw [h1]
          constructor
          · refine rollback_mappings_mono rest _ _ tid ?_
            rw [hokm]
            exact dget_ddel_self _ _
          · refine rollback_ports_mono rest _ _ kv0.2.port ?_
            rw [hokp, ← hport]
            exact dmem_ddel_self _ _
        · exact ha kv h1 tid h
      · intro p hp hne
        refine hb p ?_ (fun kv hkv tid h => hne kv (List.mem_cons_of_mem _ hkv) tid h)
        rw [hokp]
        have hpne : p ≠ info.port := by
          intro he
          exact hne kv0 (List.mem_cons_self _ _) tid0 htid (by rw [← hport, ← he])
        rw [dmem_ddel_ne_preserve _ _ _ hpne]
        exact hp

/-- Two batch records with the same port coincide when the batch ports
are pairwise distinct. -/
theorem nodup_map_port_inj (l : List (String × TunnelRec))
    (h : (l.map (fun kv => kv.2.port)).Nodup) (x y : String × TunnelRec)
    (hx : x ∈ l) (hy : y ∈ l) (hp : x.2.port = y.2.port) : x = y :=
  List.inj_on_of_nodup_map h hx hy hp

end DockerContainerManager

/-- C1 (amended).  For a `create_container` call on a name with no
existing runtime container whose tunnel batch fails, provided the
resolved ids of the created batch are pairwise distinct and the broker
answers every rollback delete with success: the call returns `None`; the
name is removed from the runtime, the image map, the image history and
the container-tunnel bindings, and both persisted files are synced; every
created record whose id was resolved is erased from the tunnel cache and
its port released.  However — contrary to the literal claim that no port
remains allocated — the port of every created record whose id resolution
failed (`tunnel_id = None`) is skipped by the rollback and remains
allocated. -/
theorem claim_c1 (s : CMState) (env : Env) (image name ip : String)
    (hname : dmem s.docker name = false)
    (hfail : (DockerContainerManager.tunnel_batch s.dtm env name ip
      (DockerContainerManager.services_to_tunnel s.config) [] [] false).2.2.1 = true)
    (hids : (((DockerContainerManager.tunnel_batch s.dtm env name ip
      (DockerContainerManager.services_to_tunnel s.config) [] [] false).1).filterMap
      (fun kv => kv.2.tunnel_id)).Nodup)
    (hqlen : (((DockerContainerManager.tunnel_batch s.dtm env name ip
      (DockerContainerManager.services_to_tunnel s.config) [] [] false).1).filterMap
      (fun kv => kv.2.tunnel_id)).length ≤
      (DockerContainerManager.tunnel_batch s.dtm env name ip
        (DockerContainerManager.services_to_tunnel
          s.config) [] [] false).2.2.2.2.delQ.length)
    (hqtrue : ∀ b ∈ (DockerContainerManager.tunnel_batch s.dtm env name ip
      (DockerContainerManager.services_to_tunnel s.config) [] [] false).2.2.2.2.delQ,
      b = true) :
    (DockerContainerManager.create_container s env image name (some ip)).1 = none ∧
    dmem (DockerContainerManager.create_container s env image name
      (some ip)).2.1.docker name = false ∧
    dget (DockerContainerManager.create_container s env image name
      (some ip)).2.1.container_images name = none ∧
    dget (DockerContainerManager.create_container s env image name
      (some ip)).2.1.image_history name = none ∧
    dget (DockerContainerManager.create_container s env image name
      (some ip)).2.1.container_tunnels name = none ∧
    (DockerContainerManager.create_container s env image name
      (some ip)).2.1.images_disk =
      ((DockerContainerManager.create_container s env image name
        (some ip)).2.1.container_images,
       (DockerContainerManager.create_container s env image name
        (some ip)).2.1.image_history) ∧
    (DockerContainerManager.create_container s env image name
      (some ip)).2.1.states_disk =
      (DockerContainerManager.create_container s env image name
        (some ip)).2.1.container_tunnels ∧
    (∀ kv ∈ (DockerContainerManager.tunnel_batch s.dtm env name ip
        (DockerContainerManager.services_to_tunnel s.config) [] [] false).1,
      ∀ tid, kv.2.tunnel_id = some tid →
        dget (DockerContainerManager.create_container s env image name
          (some ip)).2.1.dtm.tunnel_mappings tid = none ∧
        dmem (DockerContainerManager.create_container s env image name
          (some ip)).2.1.dtm.pm.allocated_ports kv.2.port = false) ∧
    (∀ kv ∈ (DockerContainerManager.tunnel_batch s.dtm env name ip
        (DockerContainerManager.services_to_tunnel s.config) [] [] false).1,
      kv.2.tunnel_id = none →
        dmem (DockerContainerManager.create_container s env image name
          (some ip)).2.1.dtm.pm.allocated_ports kv.2.port = true) := by
  obtain ⟨-, hallocB, hportsB, hmapsB⟩ := DockerContainerManager.tunnel_batch_spec
    (DockerContainerManager.services_to_tunnel s.config) s.dtm env name ip [] [] false
    hids (by intro kv hkv; simp at hkv) (by simp) (by intro kv hkv; simp at hkv)
  obtain ⟨ha, hb⟩ := DockerContainerManager.rollback_spec
    (DockerContainerManager.tunnel_batch s.dtm env name ip
      (DockerContainerManager.services_to_tunnel s.config) [] [] false).1
    (DockerContainerManager.tunnel_batch s.dtm env name ip
      (DockerContainerManager.services_to_tunnel s.config) [] [] false).2.2.2.1
    (DockerContainerManager.tunnel_batch s.dtm env name ip
      (DockerContainerManager.services_to_tunnel s.config) [] [] false).2.2.2.2
    hmapsB hids hqlen hqtrue
  simp only [DockerContainerManager.create_container,
    DockerContainerManager.save_container_images,
    DockerContainerManager.save_container_states, hname, Bool.false_eq_true, if_false,
    hfail, if_true]
  refine ⟨by trivial, dmem_ddel_self _ _, dget_ddel_self _ _, dget_ddel_self _ _,
    dget_ddel_self _ _, by trivial, by trivial, ha, ?_⟩
  intro kv hkv hnone
  refine hb kv.2.port (hallocB kv hkv) ?_
  intro kv2 hkv2 tid h hp
  have heq : kv2 = kv :=
    DockerContainerManager.nodup_map_port_inj _ hportsB kv2 kv hkv2 hkv hp
  rw [heq, hnone] at h
  exact Option.noConfusion h

/-- Counterexample to the literal claim that after a failed
`create_container` batch no port remains allocated for the name: with two
free ports 10000–10001 and a broker that accepts the ssh tunnel but never
reports it in `list_tunnels` (so its id resolves to `None`) and then
rejects the jupyter tunnel, the call fails and rolls back, yet port
10000 of the unresolved ssh tunnel is still allocated afterwards. -/
theorem claim_c1_counterexample :
    (DockerContainerManager.create_container
      ⟨⟨22, 8888, 5000, 1⟩, [], [], [], ([], []), [],
        ⟨2, [], ⟨⟨10000, 10001, [], "sequential", []⟩, [], []⟩⟩, []⟩
      ⟨[true, false], [[]], [], [], [], [], 0⟩ "img" "demo" (some "ip")).1 = none ∧
    dmem (DockerContainerManager.create_container
      ⟨⟨22, 8888, 5000, 1⟩, [], [], [], ([], []), [],
        ⟨2, [], ⟨⟨10000, 10001, [], "sequential", []⟩, [], []⟩⟩, []⟩
      ⟨[true, false], [[]], [], [], [], [], 0⟩ "img" "demo"
        (some "ip")).2.1.dtm.pm.allocated_ports 10000 = true := by
  decide

/-- Closed instance of the amended C1 theorem on the concrete failing
run: the call returns `None` and the name is gone from the runtime, the
image map, the history and the bindings. -/
theorem claim_c1_witness :
    (DockerContainerManager.create_container
      ⟨⟨22, 8888, 5000, 1⟩, [], [], [], ([], []), [],
        ⟨2, [], ⟨⟨10000, 10001, [], "sequential", []⟩, [], []⟩⟩, []⟩
      ⟨[true, false], [[]], [], [], [], [], 0⟩ "img" "demo" (some "ip")).1 = none ∧
    dmem (DockerContainerManager.create_container
      ⟨⟨22, 8888, 5000, 1⟩, [], [], [], ([], []), [],
        ⟨2, [], ⟨⟨10000, 10001, [], "sequential", []⟩, [], []⟩⟩, []⟩
      ⟨[true, false], [[]], [], [], [], [], 0⟩ "img" "demo"
        (some "ip")).2.1.docker "demo" = false ∧
    dget (DockerContainerManager.create_container
      ⟨⟨22, 8888, 5000, 1⟩, [], [], [], ([], []), [],
        ⟨2, [], ⟨⟨10000, 10001, [], "sequential", []⟩, [], []⟩⟩, []⟩
      ⟨[true, false], [[]], [], [], [], [], 0⟩ "img" "demo"
        (some "ip")).2.1.container_tunnels "demo" = none := by
  have h := claim_c1
    ⟨⟨22, 8888, 5000, 1⟩, [], [], [], ([], []), [],
      ⟨2, [], ⟨⟨10000, 10001, [], "sequential", []⟩, [], []⟩⟩, []⟩
    ⟨[true, false], [[]], [], [], [], [], 0⟩ "img" "demo" "ip"
    (by decide) (by decide) (by decide) (by decide) (by decide)
  exact ⟨h.1, h.2.1, h.2.2.2.2.1⟩

end PoemSys
